import Mathlib

/-!
Verification of the diagram orchestration and rendering pipeline of the
markdoc repository (BrowserMark): the document transformer
`renderMarkdownWithDiagrams` (src/utils/markdownDiagramProcessor.js), the
error-handling utilities (src/utils/diagramErrorHandler.js) and the
renderer registry `DiagramManager`.

Text is modelled as `List Char`.  Asynchronous code is modelled by explicit
state passing (the registry) or by outcome functions (per-block render
results), and timer races by explicit settle/fire times.
-/

set_option maxHeartbeats 1000000
set_option maxRecDepth 100000

/-- Document text, modelled as a list of characters. -/
abbrev Text := List Char

/-- JavaScript `String.prototype.toLowerCase`, restricted to the ASCII
range exactly as `Char.toLower` is. -/
def toLowerT (t : Text) : Text := t.map Char.toLower

/-- Number of positions of `t` at which the pattern `p` occurs
(substring occurrences, counted at every start position). -/
def countOcc (p : Text) : Text → Nat
  | [] => if p.isPrefixOf ([] : Text) then 1 else 0
  | c :: r => (if p.isPrefixOf (c :: r) then 1 else 0) + countOcc p r

/-- JavaScript `String.prototype.includes`: does `p` occur as a substring
of the text? -/
def isSubstr (p : Text) : Text → Bool
  | [] => p.isPrefixOf ([] : Text)
  | c :: r => p.isPrefixOf (c :: r) || isSubstr p r

/-- The backquote character (code point 96). -/
def backquoteChar : Char := Char.ofNat 96

/-- The apostrophe character (code point 39). -/
def singleQuoteChar : Char := Char.ofNat 39

/-- ECMA-262 GetSubstitution for a plain-string pattern (no capture
groups): expand the dollar patterns of the replacement template — a
doubled dollar gives a literal dollar, dollar-ampersand the matched
substring, dollar-backquote the part of the subject before the match,
dollar-apostrophe the part after it; any other dollar sequence (there are
no captures) is left as-is. -/
def getSubstitution (matched before after : Text) : Text → Text
  | [] => []
  | [c] => [c]
  | c :: d :: r =>
    if c = '$' then
      if d = '$' then '$' :: getSubstitution matched before after r
      else if d = '&' then matched ++ getSubstitution matched before after r
      else if d = backquoteChar then before ++ getSubstitution matched before after r
      else if d = singleQuoteChar then after ++ getSubstitution matched before after r
      else c :: getSubstitution matched before after (d :: r)
    else c :: getSubstitution matched before after (d :: r)

/-- Position of the first occurrence of `p` in the text
(JavaScript `String.prototype.indexOf`), `none` when absent. -/
def findSubstr (p : Text) : Text → Option Nat
  | [] => if p.isPrefixOf ([] : Text) then some 0 else none
  | c :: r =>
    if p.isPrefixOf (c :: r) then some 0
    else (findSubstr p r).map (fun n => n + 1)

/-- JavaScript `String.prototype.replace` with a plain-string pattern:
replaces the first occurrence of `p` by the replacement template `c`
expanded through GetSubstitution (dollar patterns interpreted); returns
the text unchanged when `p` does not occur. -/
def replaceFirst (p c t : Text) : Text :=
  match findSubstr p t with
  | none => t
  | some pos =>
    t.take pos
      ++ getSubstitution p (t.take pos) (t.drop (pos + p.length)) c
      ++ t.drop (pos + p.length)

/-- No dollar character occurs in the text (so GetSubstitution leaves a
replacement template unchanged). -/
def noDollar : Text → Bool
  | [] => true
  | ch :: r => if ch = '$' then false else noDollar r

/-- The `escapeHtml` helper of markdownDiagramProcessor.js: it routes text
through a DOM text node, which escapes the characters that are special in
HTML text content. -/
def escapeHtml : Text → Text
  | [] => []
  | c :: r =>
    (if c = '&' then ("&amp;").toList
     else if c = '<' then ("&lt;").toList
     else if c = '>' then ("&gt;").toList
     else [c]) ++ escapeHtml r

/-- Interleaving of static segments and rendered containers:
`s0 ++ c0 ++ s1 ++ c1 ++ ... ++ sn` (used with `segs.length = conts.length + 1`). -/
def interleave : List Text → List Text → Text
  | s :: ss, c :: cs => s ++ c ++ interleave ss cs
  | s :: _, [] => s
  | [], _ => []

/-- Append `x` to the last element of a segment list. -/
def appendLast (x : Text) : List Text → List Text
  | [] => [x]
  | [s] => [s ++ x]
  | s :: s' :: ss => s :: appendLast x (s' :: ss)

/-- Pair each list element with its position, starting at `k`. -/
def withIdx (k : Nat) : List α → List (Nat × α)
  | [] => []
  | a :: as => (k, a) :: withIdx (k + 1) as

/-! ### Diagram block extraction

The block extractor `getDiagramBlocks` lives in src/utils/markdownParser.js,
which is not part of the available sources; it is modelled from the spec. -/

/-- A fenced diagram block extracted from source text
(spec section 3: language, code, startIndex, endIndex; ordered by
startIndex, language case-insensitive). -/
structure DiagramBlock where
  language : Text
  code : Text
  startIndex : Nat
  endIndex : Nat
  deriving Repr, DecidableEq, Inhabited

/-- Shift a block's indices by `k` (used when scanning a suffix of the text). -/
def shiftBlock (k : Nat) (b : DiagramBlock) : DiagramBlock :=
  { b with startIndex := b.startIndex + k, endIndex := b.endIndex + k }

/-- The fixed diagram-language set (spec section 6, and the loader table of
DiagramManager). -/
def supportedLanguages : List Text :=
  [("mermaid").toList, ("dot").toList, ("graphviz").toList,
   ("nomnoml").toList, ("pikchr").toList]

/-- A code fence: three backticks. -/
def fenceMark : Text := ("```").toList

/-- Case-insensitive membership of a fence's language tag in the diagram set. -/
def isDiagramLanguage (lang : Text) : Bool :=
  supportedLanguages.contains (toLowerT lang)

/-- Length of the first line of `t`, counting its terminating newline when
present. -/
def lineLen : Text → Nat
  | [] => 0
  | c :: r => if c = '\n' then 1 else 1 + lineLen r

/-- The first line of `t`, without its terminating newline. -/
def takeLineContent : Text → Text
  | [] => []
  | c :: r => if c = '\n' then [] else c :: takeLineContent r

/-- Modelled from the spec: the search for the closing fence of a fenced
code block (part of `getDiagramBlocks` of src/utils/markdownParser.js,
absent from the sources).  Starting at a line boundary, returns the code
up to the closing fence line and the number of characters consumed through
the end of that line; `none` when the block is unclosed.  `atStart` is
true at a line boundary. -/
def findClose : Text → Bool → Option (Text × Nat)
  | [], _ => none
  | c :: r, atStart =>
    if atStart && fenceMark.isPrefixOf (c :: r) then
      some ([], 3 + lineLen ((c :: r).drop 3))
    else
      (findClose r (c == '\n')).map (fun p => (c :: p.1, p.2 + 1))

/-- Modelled from the spec: the fenced-block scanner of `getDiagramBlocks`
(src/utils/markdownParser.js, absent from the sources).  Scans the text for
fenced code blocks opened at a line boundary; every fenced block is
recognized (so fences inside a non-diagram block are not extracted), but
only blocks whose language tag is in the diagram set are returned.  The
fuel argument bounds recursion and is chosen large enough by
`getDiagramBlocks`. -/
def scanFuel : Nat → Text → Bool → List DiagramBlock
  | 0, _, _ => []
  | fuel + 1, t, atStart =>
    if atStart && fenceMark.isPrefixOf t then
      let rest3 := t.drop 3
      let langLine := takeLineContent rest3
      let n1 := lineLen rest3
      match findClose (rest3.drop n1) true with
      | some (code, m) =>
        let blockLen := 3 + n1 + m
        let tail := (scanFuel fuel (t.drop blockLen) true).map (shiftBlock blockLen)
        if isDiagramLanguage langLine then
          { language := langLine, code := code, startIndex := 0, endIndex := blockLen } :: tail
        else tail
      | none => []
    else
      match t with
      | [] => []
      | c :: r => (scanFuel fuel r (c == '\n')).map (shiftBlock 1)

/-- Modelled from the spec: `getDiagramBlocks` (src/utils/markdownParser.js,
absent from the sources): given document text, the ordered list of
`{language, code, startIndex, endIndex}` for all fenced code blocks whose
language tag is in the fixed diagram-language set (case-insensitive). -/
def getDiagramBlocks (t : Text) : List DiagramBlock :=
  scanFuel (t.length + 1) t true

/-- `ChainedIn lo bs hi`: the blocks of `bs` lie in `[lo, hi]`, are
non-empty and pairwise disjoint, in increasing position order. -/
def ChainedIn (lo : Nat) : List DiagramBlock → Nat → Prop
  | [], hi => lo ≤ hi
  | b :: bs, hi => lo ≤ b.startIndex ∧ b.startIndex < b.endIndex ∧ ChainedIn b.endIndex bs hi

/-- The static text segments of `t` around the given blocks: the text from
`pos` to the first block, between consecutive blocks, and after the last. -/
def segsBetween (t : Text) : Nat → List DiagramBlock → List Text
  | pos, [] => [t.drop pos]
  | pos, b :: bs => ((t.take b.startIndex).drop pos) :: segsBetween t b.endIndex bs

/-! ### The document transformer `renderMarkdownWithDiagrams`
(src/utils/markdownDiagramProcessor.js lines 21-95).

The per-call unique id generator (`diagram-` ++ timestamp ++ random suffix
in the source) is injected as `ids : Nat -> Text`, indexed by block
position, and the outcome of `diagramManager.renderDiagram` (including
XMLSerializer serialization on success and the caught rejection's message
on failure) is injected as `render : Text -> Text -> Except Text Text`. -/

/-- A queued replacement (source lines 51-56). -/
structure Replacement where
  placeholder : Text
  diagramId : Text
  language : Text
  code : Text
  deriving Repr, DecidableEq

/-- The placeholder token for a diagram id (source line 43). -/
def placeholderText (id : Text) : Text :=
  ("__DIAGRAM_PLACEHOLDER_").toList ++ id ++ ("__").toList

/-- The replacement record queued for block `b` at position `i`. -/
def mkReplacement (ids : Nat → Text) (i : Nat) (b : DiagramBlock) : Replacement :=
  { placeholder := placeholderText (ids i), diagramId := ids i,
    language := b.language, code := b.code }

/-- The reverse-order placeholder-splicing loop (source lines 35-61): the
list holds `(index, block)` pairs in reverse document order; each step
replaces `[startIndex, endIndex)` of the current text by the block's
placeholder and queues the replacement. -/
def spliceRev (ids : Nat → Text) :
    List (Nat × DiagramBlock) → Text → List Replacement → Text × List Replacement
  | [], text, reps => (text, reps)
  | ib :: rest, text, reps =>
    spliceRev ids rest
      (text.take ib.2.startIndex ++ placeholderText (ids ib.1) ++ text.drop ib.2.endIndex)
      (reps ++ [mkReplacement ids ib.1 ib.2])

/-- The success container markup (source line 79). -/
def successContainer (id svg : Text) : Text :=
  ("<div class=\"diagram-container\" id=\"").toList ++ id ++ ("\">").toList
    ++ svg ++ ("</div>").toList

/-- The error container markup of the string path (source lines 85-88),
including the template literal's embedded newlines and indentation. -/
def errorContainer (id language msg : Text) : Text :=
  ("<div class=\"diagram-container diagram-error\" id=\"").toList ++ id
    ++ ("\">\n        <p class=\"diagram-error-title\">Error rendering ").toList
    ++ language
    ++ (" diagram:</p>\n        <pre class=\"diagram-error-message\">").toList
    ++ escapeHtml msg
    ++ ("</pre>\n      </div>").toList

/-- The container substituted for one replacement: the success container
around the rendered SVG, or the error container when the render rejects
(source lines 67-91). -/
def containerFor (render : Text → Text → Except Text Text) (r : Replacement) : Text :=
  match render r.language r.code with
  | Except.ok svg => successContainer r.diagramId svg
  | Except.error msg => errorContainer r.diagramId r.language msg

/-- The render-and-substitute loop (source lines 66-92): replacements are
processed in the order they were queued (reverse document order), each
replacing the first occurrence of its placeholder by its container. -/
def replaceLoop (render : Text → Text → Except Text Text) :
    List Replacement → Text → Text
  | [], html => html
  | r :: rest, html =>
    replaceLoop render rest (replaceFirst r.placeholder (containerFor render r) html)

/-- `renderMarkdownWithDiagrams` (source lines 21-95): extract the diagram
blocks; if none, return the markdown unchanged; otherwise splice in
placeholders in reverse order, then render each block and substitute its
container for its placeholder. -/
def renderMarkdownWithDiagrams (render : Text → Text → Except Text Text)
    (ids : Nat → Text) (markdown : Text) : Text :=
  let diagramBlocks := getDiagramBlocks markdown
  if diagramBlocks.isEmpty then markdown
  else
    let spliced := spliceRev ids (withIdx 0 diagramBlocks).reverse markdown []
    replaceLoop render spliced.2 spliced.1

/-- Placeholder-replacement processing of a `(placeholder, container)` pair
list (given in reverse document order, as the source queues them). -/
def replacePairsRev : List (Text × Text) → Text → Text
  | [], t => t
  | pc :: rest, t => replacePairsRev rest (replaceFirst pc.1 pc.2 t)

/-- The placeholder tokens of the blocks, in document order. -/
def phsOf (ids : Nat → Text) (blocks : List DiagramBlock) : List Text :=
  (withIdx 0 blocks).map (fun ib => placeholderText (ids ib.1))

/-- The containers of the blocks, in document order. -/
def contsOf (render : Text → Text → Except Text Text) (ids : Nat → Text)
    (blocks : List DiagramBlock) : List Text :=
  (withIdx 0 blocks).map (fun ib => containerFor render (mkReplacement ids ib.1 ib.2))

/-- The `(placeholder, container)` pairs of the blocks, in document order. -/
def pairsOf (render : Text → Text → Except Text Text) (ids : Nat → Text)
    (blocks : List DiagramBlock) : List (Text × Text) :=
  (withIdx 0 blocks).map
    (fun ib => (placeholderText (ids ib.1), containerFor render (mkReplacement ids ib.1 ib.2)))

/-- The document text of `md` midway through substitution: segments
interleaved with placeholders at slots below `k` and containers at slots
`k` and above. -/
def mixedAt (render : Text → Text → Except Text Text) (ids : Nat → Text)
    (md : Text) (k : Nat) : Text :=
  let blocks := getDiagramBlocks md
  interleave (segsBetween md 0 blocks)
    ((phsOf ids blocks).take k ++ (contsOf render ids blocks).drop k)

/-- Collision-resistance of the generated placeholder tokens for document
`md` (spec section 4.4: placeholders are collision-resistant and unique per
block): at each substitution step the placeholder being replaced occurs
exactly once in the current text. -/
def FreshIds (render : Text → Text → Except Text Text) (ids : Nat → Text)
    (md : Text) : Prop :=
  ∀ j < (getDiagramBlocks md).length,
    countOcc ((phsOf ids (getDiagramBlocks md)).getD j []) (mixedAt render ids md (j + 1)) = 1

/-- No substituted container markup for document `md` contains a dollar
character: ruling out `String.prototype.replace` dollar-substitution
effects from the serialized SVG or the escaped error message (neither the
serializer nor `escapeHtml` escapes dollars). -/
def DollarFree (render : Text → Text → Except Text Text) (ids : Nat → Text)
    (md : Text) : Prop :=
  ∀ cont ∈ contsOf render ids (getDiagramBlocks md), noDollar cont = true

/-! ### Error handling (src/utils/diagramErrorHandler.js) -/

/-- The error taxonomy `DiagramErrorType` (source lines 9-14). -/
inductive DiagramErrorType where
  | syntax_error
  | library_load_error
  | render_timeout
  | unknown_error
  deriving Repr, DecidableEq

/-- The string tag of an error type (the values of the source's
`DiagramErrorType` object). -/
def typeTag : DiagramErrorType → Text
  | DiagramErrorType.syntax_error => ("syntax_error").toList
  | DiagramErrorType.library_load_error => ("library_load_error").toList
  | DiagramErrorType.render_timeout => ("render_timeout").toList
  | DiagramErrorType.unknown_error => ("unknown_error").toList

/-- A raw JavaScript error as observed by the classifier: its message and
stack, whether it is a `DiagramRenderError` (and then its `type`), and in
that case its `originalError`'s message and stack. -/
structure RawError where
  message : Text
  stack : Option Text := none
  dtype : Option DiagramErrorType := none
  original : Option (Text × Option Text) := none
  deriving Repr, DecidableEq

/-- A constructed `DiagramRenderError` (source lines 19-25): message,
`type`, and the message/stack of its `originalError` when present. -/
structure DiagramRenderError where
  message : Text
  dtype : DiagramErrorType
  original : Option (Text × Option Text)
  deriving Repr, DecidableEq

/-- `DiagramRenderError.getUserMessage` (source lines 31-42): the fixed
user-facing literal for each error type. -/
def getUserMessage : DiagramErrorType → Text
  | DiagramErrorType.syntax_error =>
    ("The diagram syntax is invalid. Please check your diagram code for errors.").toList
  | DiagramErrorType.library_load_error =>
    ("Failed to load the diagram library. Please check your internet connection.").toList
  | DiagramErrorType.render_timeout =>
    ("The diagram took too long to render. Try simplifying it.").toList
  | DiagramErrorType.unknown_error =>
    ("An unexpected error occurred while rendering the diagram.").toList

/-- `DiagramRenderError.getDebugMessage` (source lines 48-57). -/
def getDebugMessage (e : DiagramRenderError) : Text :=
  typeTag e.dtype ++ (": ").toList ++ e.message ++
    (match e.original with
     | none => []
     | some om =>
       ("\n\nOriginal error: ").toList ++ om.1 ++
         (match om.2 with
          | none => []
          | some st => ("\n\nStack trace:\n").toList ++ st))

/-- The per-language syntax-failure keyword sets (source lines 147-153);
the key is the lowercased language, unknown languages give the empty set. -/
def syntaxPatterns (lang : Text) : List Text :=
  if lang = ("mermaid").toList then
    [("syntax").toList, ("parse").toList, ("no diagram type detected").toList,
     ("strange syntax").toList]
  else if lang = ("dot").toList then
    [("syntax").toList, ("parse").toList, ("syntax error in line").toList]
  else if lang = ("graphviz").toList then
    [("syntax").toList, ("parse").toList]
  else if lang = ("nomnoml").toList then
    [("parse").toList, ("syntax").toList]
  else if lang = ("pikchr").toList then
    [("parse").toList, ("syntax").toList, ("invalid").toList]
  else []

/-- `isSyntaxError` (source lines 143-158): the lowercased message contains
one of the language's syntax keywords. -/
def isSyntaxError (e : RawError) (language : Text) : Bool :=
  (syntaxPatterns (toLowerT language)).any (fun p => isSubstr p (toLowerT e.message))

/-- `isLibraryLoadError` (source lines 165-174). -/
def isLibraryLoadError (e : RawError) : Bool :=
  let m := toLowerT e.message
  isSubstr (("failed to load").toList) m
    || isSubstr (("failed to initiali").toList ++ ("ze").toList) m
    || isSubstr (("network").toList) m
    || isSubstr (("404").toList) m
    || isSubstr (("fetch").toList) m
    || isSubstr (("import").toList) m

/-- One step of the regular expression match for a line number
immediately at this position: `line` (case-insensitive) followed by one or
more whitespace characters, then a maximal non-empty digit run, which is
returned. -/
def matchLineAt (t : Text) : Option Text :=
  if toLowerT (t.take 4) = ("line").toList then
    let afterWs := (t.drop 4).dropWhile Char.isWhitespace
    let ws := (t.drop 4).takeWhile Char.isWhitespace
    let digits := afterWs.takeWhile Char.isDigit
    if ws.length ≥ 1 ∧ digits.length ≥ 1 then some digits else none
  else none

/-- The first match of the regular expression for a line number in
the error message (the source's `message.match` of `line`, whitespace,
digits, case-insensitive), scanning left to right. -/
def findLineNum : Text → Option Text
  | [] => none
  | c :: r =>
    match matchLineAt (c :: r) with
    | some ds => some ds
    | none => findLineNum r

/-- `extractSyntaxErrorMessage` (source lines 182-193). -/
def extractSyntaxErrorMessage (e : RawError) (language : Text) : Text :=
  match findLineNum e.message with
  | some ds =>
    ("Syntax error at line ").toList ++ ds ++ (". Please check your ").toList
      ++ language ++ (" diagram code.").toList
  | none =>
    ("Invalid ").toList ++ language
      ++ (" diagram syntax. Please check your code for errors.").toList

/-- `extractLibraryLoadErrorMessage` (source lines 200-208). -/
def extractLibraryLoadErrorMessage (e : RawError) : Text :=
  let m := toLowerT e.message
  if isSubstr (("cdn").toList) m || isSubstr (("network").toList) m then
    ("Could not load diagram library from CDN. Check your internet connection.").toList
  else
    ("Failed to load diagram library. Please refresh the page and try again.").toList

/-- The `originalError` stored in the classifier's rethrown error
(source line 131): the incoming error's own `originalError` when it is a
`DiagramRenderError`, the incoming error itself otherwise. -/
def originalOf (e : RawError) : Option (Text × Option Text) :=
  match e.dtype with
  | some _ => e.original
  | none => some (e.message, e.stack)

/-- The classification performed by the catch block of `withErrorHandling`
(source lines 107-133): syntax keywords first, then load keywords, then
the already-tagged-timeout check, else unknown; the rethrown
`DiagramRenderError` carries the derived user message and type. -/
def classifyError (e : RawError) (language : Text) : DiagramRenderError :=
  if isSyntaxError e language then
    { message := extractSyntaxErrorMessage e language,
      dtype := DiagramErrorType.syntax_error, original := originalOf e }
  else if isLibraryLoadError e then
    { message := extractLibraryLoadErrorMessage e,
      dtype := DiagramErrorType.library_load_error, original := originalOf e }
  else if e.dtype = some DiagramErrorType.render_timeout then
    { message := e.message,
      dtype := DiagramErrorType.render_timeout, original := originalOf e }
  else
    { message := e.message,
      dtype := DiagramErrorType.unknown_error, original := originalOf e }

/-! ### The timeout guard `withTimeout` (diagramErrorHandler.js lines 67-79)

An asynchronous task is modelled by its settle time and outcome (`none`
when it never settles); the `setTimeout` callback runs at `fireAt`, which
`setTimeout` guarantees to be at or after `timeoutMs`.  `Promise.race`
settles with whichever of the task and the timer settles first (the task
winning ties, being first in the race array). -/

/-- Outcome of an asynchronous task: fulfilled with a value or rejected
with an error. -/
inductive TaskOutcome (α : Type) where
  | ok (v : α)
  | err (e : RawError)
  deriving Repr, DecidableEq

/-- An asynchronous task: its settle time and outcome, or `none` when it
never settles. -/
structure AsyncTask (α : Type) where
  result : Option (Nat × TaskOutcome α)
  deriving Repr, DecidableEq

/-- The rejection produced by the timer branch of `withTimeout` (source
lines 72-75): a `DiagramRenderError` tagged `RENDER_TIMEOUT` with no
original error. -/
def timeoutRejection (operation : Text) (timeoutMs : Nat) : RawError :=
  { message := operation ++ (" timed out after ").toList
      ++ (toString timeoutMs).toList ++ ("ms").toList,
    stack := none,
    dtype := some DiagramErrorType.render_timeout,
    original := none }

/-- `withTimeout` (diagramErrorHandler.js lines 67-79): the race of the
task against the timer; returns the settle time and outcome of the race. -/
def withTimeout (task : AsyncTask α) (timeoutMs : Nat) (operation : Text)
    (fireAt : Nat) : Nat × TaskOutcome α :=
  match task.result with
  | some tr =>
    if tr.1 ≤ fireAt then tr
    else (fireAt, TaskOutcome.err (timeoutRejection operation timeoutMs))
  | none => (fireAt, TaskOutcome.err (timeoutRejection operation timeoutMs))

/-! ### Error display elements (`createErrorElement`, diagramErrorHandler.js
lines 217-271), modelled as an HTML element tree. -/

/-- A DOM node: an element with tag, className, attributes and children, or
a text node. -/
inductive Html where
  | el (tag : Text) (className : Text) (attrs : List (Text × Text)) (children : List Html)
  | txt (s : Text)
  deriving Repr

/-- `language.charAt(0).toUpperCase() + language.slice(1)` (source
line 225). -/
def capFirst : Text → Text
  | [] => []
  | c :: r => Char.toUpper c :: r

/-- JavaScript truthiness of the optional `code` argument (an absent or
empty string is falsy). -/
def truthyText : Option Text → Bool
  | none => false
  | some s => !s.isEmpty

/-- `createErrorElement` (source lines 217-271): the error container
element, with `data-error-type`, the title line, the fixed user message,
and the collapsible technical-details section when an original error or a
non-empty code is supplied. -/
def createErrorElement (e : DiagramRenderError) (language : Text)
    (code : Option Text) : Html :=
  let title := Html.el (("p").toList) (("diagram-error-title").toList) []
    [Html.txt (capFirst language ++ (" Diagram Error").toList)]
  let userMessage := Html.el (("p").toList) (("diagram-error-message").toList) []
    [Html.txt (getUserMessage e.dtype)]
  let debugPart : List Html :=
    match e.original with
    | some _ => [Html.el (("pre").toList) (("diagram-error-debug").toList) []
        [Html.txt (getDebugMessage e)]]
    | none => []
  let codePart : List Html :=
    if truthyText code then
      [Html.el (("div").toList) (("diagram-error-code").toList) []
        [Html.el (("p").toList) (("diagram-error-code-label").toList) []
           [Html.txt (("Diagram code:").toList)],
         Html.el (("pre").toList) (("diagram-error-code-content").toList) []
           [Html.txt (code.getD [])]]]
    else []
  let details : List Html :=
    if e.original.isSome || truthyText code then
      [Html.el (("details").toList) (("diagram-error-details").toList) []
        (Html.el (("summary").toList) [] [] [Html.txt (("Technical details").toList)]
          :: (debugPart ++ codePart))]
    else []
  Html.el (("div").toList) (("diagram-container diagram-error").toList)
    [((("data-error-type").toList), typeTag e.dtype)]
    ([title, userMessage] ++ details)

/-- The className of an element (empty for a text node). -/
def htmlClass : Html → Text
  | Html.el _ c _ _ => c
  | Html.txt _ => []

/-- The attributes of an element. -/
def htmlAttrs : Html → List (Text × Text)
  | Html.el _ _ a _ => a
  | Html.txt _ => []

/-- The children of an element. -/
def htmlChildren : Html → List Html
  | Html.el _ _ _ ch => ch
  | Html.txt _ => []

/-! ### The renderer registry `DiagramManager`

The manager's three maps are association lists; renderer instances live in
an explicit heap (`instMap`) so that one instance registered under two
language aliases is shared, as in the source.  In-flight load promises are
identified by the id they were allocated; the synchronous part of
`loadRenderer` (everything up to storing the new load promise) runs
atomically, as JavaScript's single-threaded execution guarantees, and each
promise's completion handler is a separate atomic transition. -/

/-- Association-list lookup (JavaScript `Map.get`). -/
def alookup [DecidableEq κ] (k : κ) : List (κ × α) → Option α
  | [] => none
  | kv :: r => if k = kv.1 then some kv.2 else alookup k r

/-- Association-list update (JavaScript `Map.set`). -/
def aset [DecidableEq κ] (k : κ) (v : α) : List (κ × α) → List (κ × α)
  | [] => [(k, v)]
  | kv :: r => if k = kv.1 then (k, v) :: r else kv :: aset k v r

/-- Association-list removal (JavaScript `Map.delete`). -/
def aerase [DecidableEq κ] (k : κ) : List (κ × α) → List (κ × α)
  | [] => []
  | kv :: r => if k = kv.1 then r else kv :: aerase k r

/-- A renderer instance: only its `initialized` flag matters to the
registry (`renderDiagram` lines 89-91; the renderers' `initialize` sets the
flag on completion, e.g. MermaidRenderer lines 18-31). -/
structure RendererInst where
  inited : Bool
  deriving Repr, DecidableEq

/-- The mutable state of a `DiagramManager` (source lines 8-15), plus an
instance heap and fresh-id counters for promises and instances. -/
structure ManagerState where
  renderers : List (Text × Nat)
  rendererLoaders : List (Text × Nat)
  loadingCallbacks : List (Text × Nat)
  instMap : List (Nat × RendererInst)
  nextPromiseId : Nat
  nextInstId : Nat
  deriving Repr, DecidableEq

/-- The state built by the constructor (source lines 8-15). -/
def initState : ManagerState :=
  { renderers := [], rendererLoaders := [], loadingCallbacks := [],
    instMap := [], nextPromiseId := 0, nextInstId := 0 }

/-- `getRendererLoader` (source lines 23-32): the loader table keyed by the
lowercased language; `none` for unsupported languages. -/
def getRendererLoader (language : Text) : Option Unit :=
  if supportedLanguages.contains (toLowerT language) then some () else none

/-- `supportsLanguage` (source lines 137-144). -/
def supportsLanguage (language : Text) : Bool :=
  if language.isEmpty then false
  else supportedLanguages.contains (toLowerT language)

/-- What the synchronous phase of `loadRenderer` returns to its caller. -/
inductive LoadStart where
  | cached (instId : Nat)
  | inFlight (promiseId : Nat)
  | started (promiseId : Nat)
  | noLoader (msg : Text)
  deriving Repr, DecidableEq

/-- The synchronous phase of `loadRenderer` (source lines 40-77): return
the cached renderer, else the in-flight load promise, else throw for an
unsupported language, else create a new load promise and store it. -/
def loadRendererSync (st : ManagerState) (language : Text) : LoadStart × ManagerState :=
  let langLower := toLowerT language
  match alookup langLower st.renderers with
  | some rid => (LoadStart.cached rid, st)
  | none =>
    match alookup langLower st.rendererLoaders with
    | some pid => (LoadStart.inFlight pid, st)
    | none =>
      match getRendererLoader langLower with
      | none =>
        (LoadStart.noLoader (("No loader found for language: ").toList ++ language), st)
      | some _ =>
        let pid := st.nextPromiseId
        (LoadStart.started pid,
         { st with rendererLoaders := aset langLower pid st.rendererLoaders,
                   nextPromiseId := pid + 1 })

/-- The load promise's success handler (source lines 60-68): construct the
renderer (not yet initialized), cache it, and delete the in-flight entry.
Returns the new instance's id. -/
def loadSuccess (st : ManagerState) (language : Text) : ManagerState × Nat :=
  let langLower := toLowerT language
  let iid := st.nextInstId
  ({ st with renderers := aset langLower iid st.renderers,
             rendererLoaders := aerase langLower st.rendererLoaders,
             instMap := aset iid { inited := false } st.instMap,
             nextInstId := iid + 1 }, iid)

/-- The load promise's failure handler (source lines 69-73): delete the
in-flight entry (nothing is cached) and rethrow. -/
def loadFailure (st : ManagerState) (language : Text) : ManagerState :=
  { st with rendererLoaders := aerase (toLowerT language) st.rendererLoaders }

/-- `n` back-to-back invocations of the synchronous phase of `loadRenderer`
for the same language (concurrent callers arriving before the load
settles). -/
def loadCalls (st : ManagerState) (language : Text) : Nat → List LoadStart × ManagerState
  | 0 => ([], st)
  | n + 1 =>
    let first := loadRendererSync st language
    let rest := loadCalls first.2 language n
    (first.1 :: rest.1, rest.2)

/-- The first step of `renderDiagram` (source line 87): awaiting
`loadRenderer`. -/
def renderDiagramStart (st : ManagerState) (language : Text) : LoadStart × ManagerState :=
  loadRendererSync st language

/-- `renderDiagram` (source lines 86-94) on a language whose renderer is
already registered: look the instance up; call `initialize` (which sets the
instance's flag) only when the flag is not yet set.  Returns the new state
and the number of `initialize()` calls made (0 or 1). -/
def renderDiagramStep (st : ManagerState) (language : Text) : ManagerState × Nat :=
  match alookup (toLowerT language) st.renderers with
  | some iid =>
    match alookup iid st.instMap with
    | some inst =>
      if inst.inited then (st, 0)
      else ({ st with instMap := aset iid { inited := true } st.instMap }, 1)
    | none => (st, 0)
  | none => (st, 0)

/-- A sequence of completed `renderDiagram` calls, returning the final
state and the total number of `initialize()` calls. -/
def renderSeq (st : ManagerState) : List Text → ManagerState × Nat
  | [] => (st, 0)
  | l :: ls =>
    let first := renderDiagramStep st l
    let rest := renderSeq first.1 ls
    (rest.1, first.2 + rest.2)

/-- `register` (source lines 159-169): install an instance under the
lowercased key (the source's null and missing-render guards cannot fire for
a well-formed instance). -/
def register (st : ManagerState) (language : Text) (iid : Nat) : ManagerState :=
  { st with renderers := aset (toLowerT language) iid st.renderers }

/-- `unregister` (source lines 176-178): delete the cache entry, returning
whether one was present. -/
def unregister (st : ManagerState) (language : Text) : ManagerState × Bool :=
  ({ st with renderers := aerase (toLowerT language) st.renderers },
   (alookup (toLowerT language) st.renderers).isSome)

/-- `clearRenderers` (source lines 183-185): clear the cache map. -/
def clearRenderers (st : ManagerState) : ManagerState :=
  { st with renderers := [] }

/-! ### Basic lemmas -/

theorem isPrefixOf_append_self (p b : Text) : p.isPrefixOf (p ++ b) = true := by
  induction p with
  | nil => simp [List.isPrefixOf]
  | cons x xs ih => simp [List.isPrefixOf, ih]

theorem length_le_of_isPrefixOf :
    ∀ {p t : Text}, p.isPrefixOf t = true → p.length ≤ t.length := by
  intro p
  induction p with
  | nil => intro t _; simp
  | cons x xs ih =>
    intro t h
    cases t with
    | nil => simp [List.isPrefixOf] at h
    | cons y ys =>
      simp only [List.isPrefixOf, Bool.and_eq_true] at h
      simpa using ih h.2

theorem countOcc_pos (p : Text) :
    ∀ (t : Text) (i : Nat), i ≤ t.length → p.isPrefixOf (t.drop i) = true →
      1 ≤ countOcc p t := by
  intro t
  induction t with
  | nil =>
    intro i hi hp
    have hi0 : i = 0 := by simpa using hi
    subst hi0
    simp only [List.drop_nil] at hp
    simp [countOcc, hp]
  | cons c r ih =>
    intro i hi hp
    cases i with
    | zero =>
      simp only [List.drop] at hp
      simp [countOcc, hp]
    | succ j =>
      have := ih j (by simpa using hi) (by simpa using hp)
      simp only [countOcc]
      omega

theorem countOcc_two (p : Text) :
    ∀ (t : Text) (i j : Nat), i < j → j ≤ t.length →
      p.isPrefixOf (t.drop i) = true → p.isPrefixOf (t.drop j) = true →
      2 ≤ countOcc p t := by
  intro t
  induction t with
  | nil => intro i j hij hj _ _; simp only [List.length_nil] at hj; omega
  | cons c r ih =>
    intro i j hij hj hpi hpj
    cases i with
    | zero =>
      simp only [List.drop] at hpi
      cases j with
      | zero => omega
      | succ j' =>
        have h1 : 1 ≤ countOcc p r :=
          countOcc_pos p r j' (by simpa using hj) (by simpa using hpj)
        simp only [countOcc, hpi, if_true]
        omega
    | succ i' =>
      cases j with
      | zero => omega
      | succ j' =>
        have := ih i' j' (by omega) (by simpa using hj) (by simpa using hpi)
          (by simpa using hpj)
        simp only [countOcc]
        omega

theorem getSubstitution_noDollar (matched before after : Text) :
    ∀ c : Text, noDollar c = true →
      getSubstitution matched before after c = c := by
  intro c
  induction c with
  | nil => intro _; rfl
  | cons ch r ih =>
    intro h
    have hch : ¬ ch = '$' := by
      intro hc
      rw [noDollar, if_pos hc] at h
      cases h
    have hr : noDollar r = true := by
      rw [noDollar, if_neg hch] at h
      exact h
    cases r with
    | nil => rfl
    | cons d r' =>
      rw [getSubstitution, if_neg hch, ih hr]

theorem findSubstr_no_early (p b : Text) :
    ∀ a : Text,
      (∀ i, i < a.length → ¬ p.isPrefixOf ((a ++ p ++ b).drop i) = true) →
      findSubstr p (a ++ p ++ b) = some a.length := by
  intro a
  induction a with
  | nil =>
    intro _
    show findSubstr p (p ++ b) = some 0
    have h1 : p.isPrefixOf (p ++ b) = true := isPrefixOf_append_self p b
    cases hpb : p ++ b with
    | nil =>
      have hp : p = [] := (List.append_eq_nil.mp hpb).1
      subst hp
      simp [findSubstr, List.isPrefixOf]
    | cons x r =>
      rw [hpb] at h1
      rw [findSubstr, if_pos h1]
  | cons x a' ih =>
    intro h
    have h0 : ¬ p.isPrefixOf (x :: (a' ++ p ++ b)) = true := by
      have := h 0 (by simp)
      simpa using this
    have hrest : ∀ i, i < a'.length → ¬ p.isPrefixOf ((a' ++ p ++ b).drop i) = true := by
      intro i hi
      have := h (i + 1) (by simp; omega)
      simpa using this
    show findSubstr p (x :: (a' ++ p ++ b)) = some (a'.length + 1)
    rw [findSubstr, if_neg h0, ih hrest]
    rfl

theorem replaceFirst_unique (p c a b : Text)
    (h : countOcc p (a ++ p ++ b) = 1) (hc : noDollar c = true) :
    replaceFirst p c (a ++ p ++ b) = a ++ c ++ b := by
  have hne : ∀ i, i < a.length → ¬ p.isPrefixOf ((a ++ p ++ b).drop i) = true := by
    intro i hi hpre
    have hja : ((a ++ p ++ b).drop a.length) = p ++ b := by
      rw [List.append_assoc, List.drop_left]
    have hj : p.isPrefixOf ((a ++ p ++ b).drop a.length) = true := by
      rw [hja]; exact isPrefixOf_append_self p b
    have hlen : a.length ≤ (a ++ p ++ b).length := by simp
    have := countOcc_two p (a ++ p ++ b) i a.length hi hlen hpre hj
    omega
  have hfind := findSubstr_no_early p b a hne
  rw [replaceFirst, hfind]
  dsimp only
  have htake : (a ++ p ++ b).take a.length = a := by
    rw [List.append_assoc]
    exact List.take_left a (p ++ b)
  have hdrop : (a ++ p ++ b).drop (a.length + p.length) = b := by
    have hl : a.length + p.length = (a ++ p).length := by simp
    rw [hl, List.drop_left]
  rw [htake, hdrop, getSubstitution_noDollar p a b c hc]

/-! ### Lemmas about segment interleaving -/

theorem segsBetween_length (t : Text) :
    ∀ (bs : List DiagramBlock) (pos : Nat), (segsBetween t pos bs).length = bs.length + 1 := by
  intro bs
  induction bs with
  | nil => intro pos; simp [segsBetween]
  | cons b bs ih => intro pos; simp [segsBetween, ih]

theorem interleave_appendLast :
    ∀ (cs ss : List Text) (x : Text), ss.length = cs.length + 1 →
      interleave (appendLast x ss) cs = interleave ss cs ++ x := by
  intro cs
  induction cs with
  | nil =>
    intro ss x h
    match ss, h with
    | [s], _ => simp [appendLast, interleave]
  | cons c cs' ih =>
    intro ss x h
    match ss, h with
    | s :: s2 :: ss'', h =>
      have h' : (s2 :: ss'').length = cs'.length + 1 := by
        simpa using h
      show interleave (s :: appendLast x (s2 :: ss'')) (c :: cs') = _
      simp only [interleave]
      rw [ih (s2 :: ss'') x h']
      simp [List.append_assoc]

theorem interleave_snoc :
    ∀ (cs ss : List Text) (z p : Text), ss.length = cs.length + 1 →
      interleave (ss ++ [z]) (cs ++ [p]) = interleave ss cs ++ p ++ z := by
  intro cs
  induction cs with
  | nil =>
    intro ss z p h
    match ss, h with
    | [s], _ => simp [interleave, List.append_assoc]
  | cons c cs' ih =>
    intro ss z p h
    match ss, h with
    | s :: ss', h =>
      have h' : ss'.length = cs'.length + 1 := by simpa using h
      show interleave (s :: (ss' ++ [z])) (c :: (cs' ++ [p])) = _
      simp only [interleave]
      rw [ih ss' z p h']
      simp [List.append_assoc]

theorem interleave_split :
    ∀ (cs1 segs : List Text) (c : Text) (cs2 : List Text),
      segs.length = cs1.length + cs2.length + 2 →
      interleave segs (cs1 ++ c :: cs2) =
        interleave (segs.take (cs1.length + 1)) cs1 ++ c
          ++ interleave (segs.drop (cs1.length + 1)) cs2 := by
  intro cs1
  induction cs1 with
  | nil =>
    intro segs c cs2 h
    match segs, h with
    | s :: ss, _ =>
      simp [interleave, List.append_assoc]
  | cons c1 cs1' ih =>
    intro segs c cs2 h
    match segs, h with
    | s :: ss, h =>
      have h' : ss.length = cs1'.length + cs2.length + 2 := by
        simp only [List.length_cons] at h
        omega
      show interleave (s :: ss) ((c1 :: cs1') ++ c :: cs2) = _
      simp only [List.cons_append, interleave, List.length_cons, List.take_succ_cons,
        List.drop_succ_cons, List.append_eq]
      rw [ih ss c cs2 h']
      simp [List.append_assoc]

theorem withIdx_append (l1 : List α) :
    ∀ (l2 : List α) (k : Nat),
      withIdx k (l1 ++ l2) = withIdx k l1 ++ withIdx (k + l1.length) l2 := by
  induction l1 with
  | nil => intro l2 k; simp [withIdx]
  | cons a l1' ih =>
    intro l2 k
    simp only [List.cons_append, withIdx, List.length_cons, List.append_eq]
    rw [ih]
    have hk : k + 1 + l1'.length = k + (l1'.length + 1) := by omega
    rw [hk]

theorem withIdx_length : ∀ (l : List α) (k : Nat), (withIdx k l).length = l.length := by
  intro l
  induction l with
  | nil => intro k; simp [withIdx]
  | cons a l' ih => intro k; simp [withIdx, ih]

/-! ### Lemmas about block chains and the scanner -/

theorem chained_le : ∀ (bs : List DiagramBlock) (lo hi : Nat),
    ChainedIn lo bs hi → lo ≤ hi := by
  intro bs
  induction bs with
  | nil => intro lo hi h; exact h
  | cons b bs ih =>
    intro lo hi h
    obtain ⟨h1, h2, h3⟩ := h
    have := ih _ _ h3
    omega

theorem chained_mono_lo : ∀ (bs : List DiagramBlock) (lo lo' hi : Nat),
    lo' ≤ lo → ChainedIn lo bs hi → ChainedIn lo' bs hi := by
  intro bs
  cases bs with
  | nil => intro lo lo' hi h1 h2; exact le_trans h1 h2
  | cons b bs => intro lo lo' hi h1 h2; exact ⟨le_trans h1 h2.1, h2.2.1, h2.2.2⟩

theorem chained_mono_hi : ∀ (bs : List DiagramBlock) (lo hi hi' : Nat),
    hi ≤ hi' → ChainedIn lo bs hi → ChainedIn lo bs hi' := by
  intro bs
  induction bs with
  | nil => intro lo hi hi' h1 h2; exact le_trans h2 h1
  | cons b bs ih =>
    intro lo hi hi' h1 h2
    exact ⟨h2.1, h2.2.1, ih _ _ _ h1 h2.2.2⟩

theorem chained_shift : ∀ (bs : List DiagramBlock) (lo hi k : Nat),
    ChainedIn lo bs hi → ChainedIn (lo + k) (bs.map (shiftBlock k)) (hi + k) := by
  intro bs
  induction bs with
  | nil => intro lo hi k h; simpa [ChainedIn] using Nat.add_le_add_right h k
  | cons b bs ih =>
    intro lo hi k h
    obtain ⟨h1, h2, h3⟩ := h
    exact ⟨by simp [shiftBlock]; omega, by simp [shiftBlock]; omega,
      by simpa [shiftBlock] using ih _ _ k h3⟩

theorem chained_snoc : ∀ (bs : List DiagramBlock) (b : DiagramBlock) (lo hi : Nat),
    ChainedIn lo (bs ++ [b]) hi →
    ChainedIn lo bs b.startIndex ∧ b.startIndex < b.endIndex ∧ b.endIndex ≤ hi := by
  intro bs
  induction bs with
  | nil =>
    intro b lo hi h
    obtain ⟨h1, h2, h3⟩ := h
    exact ⟨h1, h2, h3⟩
  | cons b' bs ih =>
    intro b lo hi h
    obtain ⟨h1, h2, h3⟩ := h
    obtain ⟨g1, g2, g3⟩ := ih b _ _ h3
    exact ⟨⟨h1, h2, g1⟩, g2, g3⟩

theorem lineLen_le : ∀ t : Text, lineLen t ≤ t.length := by
  intro t
  induction t with
  | nil => simp [lineLen]
  | cons c r ih =>
    by_cases h : c = '\n'
    · simp [lineLen, h]
    · simp only [lineLen, if_neg h, List.length_cons]
      omega

theorem findClose_le : ∀ (t : Text) (s : Bool) (pr : Text × Nat),
    findClose t s = some pr → pr.2 ≤ t.length := by
  intro t
  induction t with
  | nil => intro s pr h; simp [findClose] at h
  | cons c r ih =>
    intro s pr h
    rw [findClose] at h
    by_cases hc : (s && fenceMark.isPrefixOf (c :: r)) = true
    · rw [if_pos hc] at h
      have h3 : 3 ≤ (c :: r).length := by
        have := length_le_of_isPrefixOf ((Bool.and_eq_true _ _).mp hc).2
        simpa [fenceMark] using this
      have hl : lineLen ((c :: r).drop 3) ≤ ((c :: r).drop 3).length := lineLen_le _
      simp only [Option.some.injEq] at h
      subst h
      simp only [List.length_drop] at hl
      simp only [List.length_cons] at *
      omega
    · rw [if_neg hc] at h
      cases hfc : findClose r (c == '\n') with
      | none => rw [hfc] at h; simp at h
      | some pr' =>
        rw [hfc] at h
        simp only [Option.map_some', Option.some.injEq] at h
        have := ih (c == '\n') pr' hfc
        subst h
        simp only [List.length_cons]
        omega

theorem scanFuel_succ (f : Nat) (t : Text) (s : Bool) :
    scanFuel (f + 1) t s =
      (if (s && fenceMark.isPrefixOf t) = true then
        match findClose ((t.drop 3).drop (lineLen (t.drop 3))) true with
        | some pr =>
          if isDiagramLanguage (takeLineContent (t.drop 3)) then
            { language := takeLineContent (t.drop 3), code := pr.1, startIndex := 0,
              endIndex := 3 + lineLen (t.drop 3) + pr.2 }
              :: (scanFuel f (t.drop (3 + lineLen (t.drop 3) + pr.2)) true).map
                   (shiftBlock (3 + lineLen (t.drop 3) + pr.2))
          else (scanFuel f (t.drop (3 + lineLen (t.drop 3) + pr.2)) true).map
                 (shiftBlock (3 + lineLen (t.drop 3) + pr.2))
        | none => []
      else
        match t with
        | [] => []
        | c :: r => (scanFuel f r (c == '\n')).map (shiftBlock 1)) := by
  rw [scanFuel.eq_def]
  dsimp only
  cases hfc : findClose ((t.drop 3).drop (lineLen (t.drop 3))) true with
  | none => simp
  | some pr => cases pr; simp

theorem scan_chained : ∀ (fuel : Nat) (t : Text) (s : Bool),
    ChainedIn 0 (scanFuel fuel t s) t.length := by
  intro fuel
  induction fuel with
  | zero => intro t s; simp [scanFuel, ChainedIn]
  | succ f ih =>
    intro t s
    rw [scanFuel_succ]
    by_cases hc : (s && fenceMark.isPrefixOf t) = true
    · rw [if_pos hc]
      have h3 : 3 ≤ t.length := by
        have := length_le_of_isPrefixOf ((Bool.and_eq_true _ _).mp hc).2
        simpa [fenceMark] using this
      cases hfc : findClose ((t.drop 3).drop (lineLen (t.drop 3))) true with
      | none => simp [ChainedIn]
      | some pr =>
        dsimp only
        have hm : pr.2 ≤ ((t.drop 3).drop (lineLen (t.drop 3))).length :=
          findClose_le _ _ _ hfc
        have hn1 : lineLen (t.drop 3) ≤ (t.drop 3).length := lineLen_le _
        simp only [List.length_drop] at hm hn1
        have hble : 3 + lineLen (t.drop 3) + pr.2 ≤ t.length := by omega
        have htail : ChainedIn (3 + lineLen (t.drop 3) + pr.2)
            ((scanFuel f (t.drop (3 + lineLen (t.drop 3) + pr.2)) true).map
              (shiftBlock (3 + lineLen (t.drop 3) + pr.2))) t.length := by
          have := chained_shift _ _ _ (3 + lineLen (t.drop 3) + pr.2)
            (ih (t.drop (3 + lineLen (t.drop 3) + pr.2)) true)
          simp only [Nat.zero_add, List.length_drop] at this
          rwa [Nat.sub_add_cancel hble] at this
        by_cases hd : isDiagramLanguage (takeLineContent (t.drop 3)) = true
        · rw [if_pos hd]
          exact ⟨Nat.zero_le _, by dsimp only; omega, by dsimp only; exact htail⟩
        · rw [if_neg hd]
          exact chained_mono_lo _ _ _ _ (Nat.zero_le _) htail
    · rw [if_neg hc]
      cases t with
      | nil => simp [ChainedIn]
      | cons c r =>
        have := chained_shift _ _ _ 1 (ih r (c == '\n'))
        simp only [Nat.zero_add] at this
        exact chained_mono_lo _ _ _ _ (Nat.zero_le _)
          (by simpa [Nat.add_comm] using this)

theorem segsBetween_ne_nil (t : Text) (pos : Nat) (bs : List DiagramBlock) :
    segsBetween t pos bs ≠ [] := by
  cases bs <;> simp [segsBetween]

theorem appendLast_cons_of_ne_nil (x s : Text) (ss : List Text) (h : ss ≠ []) :
    appendLast x (s :: ss) = s :: appendLast x ss := by
  cases ss with
  | nil => exact absurd rfl h
  | cons s2 ss' => rfl

theorem seg_append :
    ∀ (bs : List DiagramBlock) (u v : Text) (pos : Nat),
      ChainedIn pos bs u.length →
      segsBetween (u ++ v) pos bs = appendLast v (segsBetween u pos bs) := by
  intro bs
  induction bs with
  | nil =>
    intro u v pos h
    show [(u ++ v).drop pos] = appendLast v [u.drop pos]
    rw [List.drop_append_of_le_length h]
    rfl
  | cons b bs ih =>
    intro u v pos h
    obtain ⟨h1, h2, h3⟩ := h
    have hbu : b.endIndex ≤ u.length := chained_le _ _ _ h3
    show ((u ++ v).take b.startIndex).drop pos :: segsBetween (u ++ v) b.endIndex bs
        = appendLast v (((u.take b.startIndex).drop pos) :: segsBetween u b.endIndex bs)
    rw [List.take_append_of_le_length (by omega), ih u v b.endIndex h3,
      appendLast_cons_of_ne_nil _ _ _ (segsBetween_ne_nil u b.endIndex bs)]

theorem seg_snoc :
    ∀ (bs : List DiagramBlock) (b : DiagramBlock) (t : Text) (pos : Nat),
      ChainedIn pos bs b.startIndex →
      segsBetween t pos (bs ++ [b])
        = segsBetween (t.take b.startIndex) pos bs ++ [t.drop b.endIndex] := by
  intro bs
  induction bs with
  | nil =>
    intro b t pos h
    simp [segsBetween]
  | cons b' bs ih =>
    intro b t pos h
    obtain ⟨h1, h2, h3⟩ := h
    have hb'b : b'.endIndex ≤ b.startIndex := chained_le _ _ _ h3
    simp only [List.cons_append, segsBetween, List.append_eq]
    rw [ih b t b'.endIndex h3, List.take_take,
      min_eq_left (show b'.startIndex ≤ b.startIndex by omega)]

theorem phsOf_length (ids : Nat → Text) (bs : List DiagramBlock) :
    (phsOf ids bs).length = bs.length := by
  simp [phsOf, withIdx_length]

theorem spliceRev_eq (ids : Nat → Text) :
    ∀ (blocks : List DiagramBlock) (t : Text) (acc : List Replacement),
      ChainedIn 0 blocks t.length →
      spliceRev ids (withIdx 0 blocks).reverse t acc =
        (interleave (segsBetween t 0 blocks) (phsOf ids blocks),
         acc ++ ((withIdx 0 blocks).map (fun ib => mkReplacement ids ib.1 ib.2)).reverse) := by
  intro blocks
  induction blocks using List.reverseRecOn with
  | nil =>
    intro t acc h
    simp [withIdx, spliceRev, segsBetween, phsOf, interleave]
  | append_singleton bs b ih =>
    intro t acc h
    obtain ⟨hcb, hlt, hle⟩ := chained_snoc bs b 0 t.length h
    have hstart_le : b.startIndex ≤ t.length := by omega
    have htake : (t.take b.startIndex).length = b.startIndex := by
      simp [List.length_take]
      omega
    have hrev : (withIdx 0 (bs ++ [b])).reverse
        = (bs.length, b) :: (withIdx 0 bs).reverse := by
      rw [withIdx_append]
      simp [withIdx]
    rw [hrev]
    show spliceRev ids ((bs.length, b) :: (withIdx 0 bs).reverse) t acc = _
    rw [spliceRev]
    set ph := placeholderText (ids bs.length) with hph
    set t' := t.take b.startIndex ++ ph ++ t.drop b.endIndex with ht'
    have hchain' : ChainedIn 0 bs t'.length := by
      apply chained_mono_hi bs 0 b.startIndex
      · rw [ht']
        simp only [List.append_assoc, List.length_append]
        omega
      · exact hcb
    have := ih t' (acc ++ [mkReplacement ids bs.length b]) hchain'
    rw [List.append_assoc] at this
    rw [this, Prod.mk.injEq]
    constructor
    · -- text component
      have hchain_take : ChainedIn 0 bs (t.take b.startIndex).length := by
        rw [htake]; exact hcb
      rw [ht', List.append_assoc, seg_append bs (t.take b.startIndex)
        (ph ++ t.drop b.endIndex) 0 hchain_take]
      rw [interleave_appendLast (phsOf ids bs) _ _
        (by rw [segsBetween_length, phsOf_length])]
      rw [seg_snoc bs b t 0 hcb]
      have hphlen : (phsOf ids (bs ++ [b])).length = bs.length + 1 := by
        rw [phsOf_length]; simp
      have hphsnoc : phsOf ids (bs ++ [b]) = phsOf ids bs ++ [ph] := by
        simp only [phsOf, withIdx_append, List.map_append]
        simp [withIdx, hph]
      rw [hphsnoc, interleave_snoc (phsOf ids bs) _ _ _
        (by rw [segsBetween_length, phsOf_length])]
      simp [List.append_assoc]
    · -- replacements component
      rw [withIdx_append]
      simp [withIdx, List.append_assoc]

theorem getD_snoc_length (l : List α) (a d : α) : (l ++ [a]).getD l.length d = a := by
  induction l with
  | nil => rfl
  | cons x xs ih => exact ih

theorem getD_snoc_lt :
    ∀ (l : List α) (a d : α) (j : Nat), j < l.length → (l ++ [a]).getD j d = l.getD j d := by
  intro l
  induction l with
  | nil => intro a d j h; simp at h
  | cons x xs ih =>
    intro a d j h
    cases j with
    | zero => rfl
    | succ j' => exact ih a d j' (by simpa using h)

theorem replacePairsRev_eq :
    ∀ (pcs : List (Text × Text)) (done : List Text) (segs : List Text),
      segs.length = pcs.length + done.length + 1 →
      (∀ pc ∈ pcs, noDollar pc.2 = true) →
      (∀ j, j < pcs.length →
        countOcc ((pcs.map Prod.fst).getD j [])
          (interleave segs
            ((pcs.map Prod.fst).take (j + 1) ++ (pcs.map Prod.snd).drop (j + 1) ++ done)) = 1) →
      replacePairsRev pcs.reverse (interleave segs (pcs.map Prod.fst ++ done))
        = interleave segs (pcs.map Prod.snd ++ done) := by
  intro pcs
  induction pcs using List.reverseRecOn with
  | nil =>
    intro done segs hlen hnd hfr
    simp [replacePairsRev]
  | append_singleton qs pc ih =>
    intro done segs hlen hnd hfr
    obtain ⟨p, c⟩ := pc
    have hql : (qs ++ [(p, c)]).length = qs.length + 1 := by simp
    have hsegs2 : segs.length = qs.length + done.length + 2 := by
      rw [hql] at hlen; omega
    have hfst : (qs ++ [(p, c)]).map Prod.fst = qs.map Prod.fst ++ [p] := by simp
    have hsnd : (qs ++ [(p, c)]).map Prod.snd = qs.map Prod.snd ++ [c] := by simp
    have hrev : (qs ++ [(p, c)]).reverse = (p, c) :: qs.reverse := by simp
    rw [hrev, hfst, hsnd]
    show replacePairsRev qs.reverse
        (replaceFirst p c (interleave segs ((qs.map Prod.fst ++ [p]) ++ done))) = _
    have hqf : (qs.map Prod.fst).length = qs.length := by simp
    have hsplit1 : interleave segs ((qs.map Prod.fst ++ [p]) ++ done)
        = interleave (segs.take (qs.length + 1)) (qs.map Prod.fst) ++ p
            ++ interleave (segs.drop (qs.length + 1)) done := by
      rw [List.append_assoc, List.singleton_append]
      have := interleave_split (qs.map Prod.fst) segs p done (by rw [hqf]; omega)
      rw [hqf] at this
      exact this
    have hgp : (qs.map Prod.fst ++ [p]).getD qs.length [] = p := by
      rw [← hqf]; exact getD_snoc_length _ _ _
    have htk : (qs.map Prod.fst ++ [p]).take (qs.length + 1) = qs.map Prod.fst ++ [p] :=
      List.take_of_length_le (by simp)
    have hdr : (qs.map Prod.snd ++ [c]).drop (qs.length + 1) = [] :=
      List.drop_eq_nil_of_le (by simp)
    have hfr0 := hfr qs.length (by simp)
    rw [hfst, hsnd, hgp, htk, hdr, List.append_nil, hsplit1] at hfr0
    have hcnd : noDollar c = true := hnd (p, c) (by simp)
    rw [hsplit1, replaceFirst_unique p c _ _ hfr0 hcnd]
    have hsplit2 : interleave segs (qs.map Prod.fst ++ c :: done)
        = interleave (segs.take (qs.length + 1)) (qs.map Prod.fst) ++ c
            ++ interleave (segs.drop (qs.length + 1)) done := by
      have := interleave_split (qs.map Prod.fst) segs c done (by rw [hqf]; omega)
      rw [hqf] at this
      exact this
    rw [← hsplit2]
    have hih := ih (c :: done) segs (by simp only [List.length_cons]; omega)
      (fun pc hpc => hnd pc (by simp [hpc])) ?_
    · rw [hih, List.append_assoc, List.singleton_append]
    · intro j hj
      have hymn := hfr j (by simp only [hql]; omega)
      rw [hfst, hsnd, getD_snoc_lt _ _ _ j (by rw [hqf]; exact hj),
        List.take_append_of_le_length (by rw [hqf]; omega),
        List.drop_append_of_le_length (by simp; omega)] at hymn
      simpa [List.append_assoc] using hymn

theorem replaceLoop_eq_pairs (render : Text → Text → Except Text Text) :
    ∀ (rs : List Replacement) (t : Text),
      replaceLoop render rs t
        = replacePairsRev (rs.map (fun r => (r.placeholder, containerFor render r))) t := by
  intro rs
  induction rs with
  | nil => intro t; rfl
  | cons r rs ih =>
    intro t
    simp only [replaceLoop, List.map_cons, replacePairsRev]
    exact ih _

theorem pairsOf_map_fst (render : Text → Text → Except Text Text) (ids : Nat → Text)
    (blocks : List DiagramBlock) :
    (pairsOf render ids blocks).map Prod.fst = phsOf ids blocks := by
  simp [pairsOf, phsOf, List.map_map, Function.comp]

theorem pairsOf_map_snd (render : Text → Text → Except Text Text) (ids : Nat → Text)
    (blocks : List DiagramBlock) :
    (pairsOf render ids blocks).map Prod.snd = contsOf render ids blocks := by
  simp [pairsOf, contsOf, List.map_map, Function.comp]

theorem pairsOf_length (render : Text → Text → Except Text Text) (ids : Nat → Text)
    (blocks : List DiagramBlock) :
    (pairsOf render ids blocks).length = blocks.length := by
  simp [pairsOf, withIdx_length]

theorem reps_to_pairs (render : Text → Text → Except Text Text) (ids : Nat → Text)
    (blocks : List DiagramBlock) :
    ((withIdx 0 blocks).map (fun ib => mkReplacement ids ib.1 ib.2)).map
        (fun r => (r.placeholder, containerFor render r))
      = pairsOf render ids blocks := by
  simp only [pairsOf, List.map_map]
  rfl

theorem renderMarkdown_decomp (render : Text → Text → Except Text Text)
    (ids : Nat → Text) (md : Text) (hF : FreshIds render ids md)
    (hD : DollarFree render ids md) :
    renderMarkdownWithDiagrams render ids md
      = interleave (segsBetween md 0 (getDiagramBlocks md))
          (contsOf render ids (getDiagramBlocks md)) := by
  rw [renderMarkdownWithDiagrams]
  by_cases hb : (getDiagramBlocks md).isEmpty = true
  · rw [if_pos hb]
    have hnil : getDiagramBlocks md = [] := List.isEmpty_iff.mp hb
    rw [hnil]
    simp [segsBetween, contsOf, withIdx, interleave]
  · rw [if_neg hb]
    have hch : ChainedIn 0 (getDiagramBlocks md) md.length := scan_chained _ _ _
    rw [spliceRev_eq ids _ md [] hch]
    dsimp only
    rw [List.nil_append, replaceLoop_eq_pairs, List.map_reverse, reps_to_pairs]
    have hlen : (segsBetween md 0 (getDiagramBlocks md)).length
        = (pairsOf render ids (getDiagramBlocks md)).length + ([] : List Text).length + 1 := by
      rw [segsBetween_length, pairsOf_length]
      simp
    have hfr : ∀ j, j < (pairsOf render ids (getDiagramBlocks md)).length →
        countOcc (((pairsOf render ids (getDiagramBlocks md)).map Prod.fst).getD j [])
          (interleave (segsBetween md 0 (getDiagramBlocks md))
            (((pairsOf render ids (getDiagramBlocks md)).map Prod.fst).take (j + 1)
              ++ ((pairsOf render ids (getDiagramBlocks md)).map Prod.snd).drop (j + 1)
              ++ ([] : List Text))) = 1 := by
      intro j hj
      rw [pairsOf_length] at hj
      have := hF j hj
      rw [mixedAt] at this
      simpa [pairsOf_map_fst, pairsOf_map_snd] using this
    have hnd : ∀ pc ∈ pairsOf render ids (getDiagramBlocks md), noDollar pc.2 = true := by
      intro pc hpc
      apply hD
      rw [← pairsOf_map_snd render ids (getDiagramBlocks md)]
      exact List.mem_map_of_mem Prod.snd hpc
    have := replacePairsRev_eq (pairsOf render ids (getDiagramBlocks md)) [] _ hlen hnd hfr
    rw [pairsOf_map_fst, pairsOf_map_snd, List.append_nil, List.append_nil] at this
    exact this

theorem map_withIdx_getD :
    ∀ (l : List α) (f : Nat × α → β) (k i : Nat) (d : β) (db : α), i < l.length →
      ((withIdx k l).map f).getD i d = f (k + i, l.getD i db) := by
  intro l
  induction l with
  | nil => intro f k i d db h; simp at h
  | cons a l' ih =>
    intro f k i d db h
    cases i with
    | zero => simp [withIdx]
    | succ i' =>
      have := ih f (k + 1) i' d db (by simpa using h)
      simp only [withIdx, List.map_cons]
      show ((withIdx (k + 1) l').map f).getD i' d = _
      rw [this]
      have : k + 1 + i' = k + (i' + 1) := by omega
      rw [this]
      rfl

theorem containerFor_mk (render : Text → Text → Except Text Text) (ids : Nat → Text)
    (i : Nat) (b : DiagramBlock) :
    containerFor render (mkReplacement ids i b)
      = match render b.language b.code with
        | Except.ok svg => successContainer (ids i) svg
        | Except.error msg => errorContainer (ids i) b.language msg := rfl

/-- C1 counterexample: with faithful `String.prototype.replace`
dollar-substitution, a mermaid render failure whose message contains a
dollar-apostrophe duplicates the already-substituted later container
(reverse-order substitution puts it in the suffix), so the output of
`renderMarkdownWithDiagrams` contains three container markups for a
two-block document even though the generated placeholders are
collision-free — refuting one-container-per-block as originally claimed. -/
theorem claim_c1_counterexample :
    (getDiagramBlocks (("A\n```mermaid\nX\n```\nM\n```nomnoml\nY\n```\nZ").toList)).length = 2
    ∧ FreshIds
        (fun lang _ =>
          if lang = ("mermaid").toList
          then Except.error (("boom ").toList ++ ['$', singleQuoteChar])
          else Except.ok (("<svg/>").toList))
        (fun i => if i = 0 then ("x0").toList else ("x1").toList)
        (("A\n```mermaid\nX\n```\nM\n```nomnoml\nY\n```\nZ").toList)
    ∧ countOcc (("<div class=\"diagram-container").toList)
        (renderMarkdownWithDiagrams
          (fun lang _ =>
            if lang = ("mermaid").toList
            then Except.error (("boom ").toList ++ ['$', singleQuoteChar])
            else Except.ok (("<svg/>").toList))
          (fun i => if i = 0 then ("x0").toList else ("x1").toList)
          (("A\n```mermaid\nX\n```\nM\n```nomnoml\nY\n```\nZ").toList)) = 3 := by
  refine ⟨by decide, by unfold FreshIds; decide, by decide⟩

/-- C2 counterexample: with faithful dollar-substitution, a render failure
message containing a dollar-apostrophe makes the substituted error
container absorb the document suffix, so the output of
`renderMarkdownWithDiagrams` differs from the positional interleaving of
source segments and block containers even though the generated
placeholders are collision-free — refuting the originally claimed
decomposition. -/
theorem claim_c2_counterexample :
    FreshIds
        (fun lang _ =>
          if lang = ("mermaid").toList
          then Except.error (("boom ").toList ++ ['$', singleQuoteChar])
          else Except.ok (("<svg/>").toList))
        (fun i => if i = 0 then ("x0").toList else ("x1").toList)
        (("A\n```mermaid\nX\n```\nB").toList)
    ∧ renderMarkdownWithDiagrams
        (fun lang _ =>
          if lang = ("mermaid").toList
          then Except.error (("boom ").toList ++ ['$', singleQuoteChar])
          else Except.ok (("<svg/>").toList))
        (fun i => if i = 0 then ("x0").toList else ("x1").toList)
        (("A\n```mermaid\nX\n```\nB").toList)
      ≠ interleave
          (segsBetween (("A\n```mermaid\nX\n```\nB").toList) 0
            (getDiagramBlocks (("A\n```mermaid\nX\n```\nB").toList)))
          (contsOf
            (fun lang _ =>
              if lang = ("mermaid").toList
              then Except.error (("boom ").toList ++ ['$', singleQuoteChar])
              else Except.ok (("<svg/>").toList))
            (fun i => if i = 0 then ("x0").toList else ("x1").toList)
            (getDiagramBlocks (("A\n```mermaid\nX\n```\nB").toList))) := by
  refine ⟨by unfold FreshIds; decide, by decide⟩

/-- C1 (amended): for every input document whose generated placeholder ids
are collision-resistant (spec section 4.4) and whose substituted container
markup contains no dollar character, processing with
`renderMarkdownWithDiagrams` produces an output with exactly one
container — a success container or an error container — per diagram block
extracted from the document, whether the block's render succeeds or
fails.  (Without the dollar restriction,
`String.prototype.replace` dollar-substitution can duplicate
already-substituted containers; see the counterexample.) -/
theorem claim_c1 (render : Text → Text → Except Text Text) (ids : Nat → Text)
    (md : Text) (hF : FreshIds render ids md) (hD : DollarFree render ids md) :
    ∃ conts : List Text,
      renderMarkdownWithDiagrams render ids md
        = interleave (segsBetween md 0 (getDiagramBlocks md)) conts
      ∧ conts.length = (getDiagramBlocks md).length
      ∧ ∀ i, i < (getDiagramBlocks md).length →
          (∃ svg, conts.getD i [] = successContainer (ids i) svg)
          ∨ (∃ msg, conts.getD i []
              = errorContainer (ids i) (((getDiagramBlocks md).getD i default).language) msg) := by
  refine ⟨contsOf render ids (getDiagramBlocks md),
    renderMarkdown_decomp render ids md hF hD, by simp [contsOf, withIdx_length], ?_⟩
  intro i hi
  have hg := map_withIdx_getD (getDiagramBlocks md)
    (fun ib => containerFor render (mkReplacement ids ib.1 ib.2)) 0 i [] default hi
  rw [contsOf, hg]
  simp only [Nat.zero_add]
  cases hr : render ((getDiagramBlocks md).getD i default).language
      ((getDiagramBlocks md).getD i default).code with
  | ok svg =>
    left
    refine ⟨svg, ?_⟩
    rw [containerFor_mk, hr]
  | error msg =>
    right
    refine ⟨msg, ?_⟩
    rw [containerFor_mk, hr]

/-- C2 (amended): when the generated placeholder ids are
collision-resistant (spec section 4.4) and no substituted container markup
contains a dollar character, the relative order of non-diagram text and
diagram containers in the processed output equals their order in the
source document: the output is exactly the source's static segments
interleaved, in source order, with the container of each block at its
block's position.  The per-block render outcomes enter only through the
pure outcome function `render`, so the result depends only on the blocks'
original positions and outcomes, never on completion order.  (Without the
dollar restriction, `String.prototype.replace` dollar-substitution makes
the output diverge from this decomposition; see the counterexample.) -/
theorem claim_c2 (render : Text → Text → Except Text Text) (ids : Nat → Text)
    (md : Text) (hF : FreshIds render ids md) (hD : DollarFree render ids md) :
    renderMarkdownWithDiagrams render ids md
      = interleave (segsBetween md 0 (getDiagramBlocks md))
          (contsOf render ids (getDiagramBlocks md)) :=
  renderMarkdown_decomp render ids md hF hD

/-- C8: a document with zero diagram blocks is returned unchanged by
`renderMarkdownWithDiagrams` (the identity transform). -/
theorem claim_c8 (render : Text → Text → Except Text Text) (ids : Nat → Text)
    (md : Text) (h : getDiagramBlocks md = []) :
    renderMarkdownWithDiagrams render ids md = md := by
  rw [renderMarkdownWithDiagrams, h]
  simp

/-- Witness for C8 at a concrete diagram-free document. -/
theorem claim_c8_witness :
    renderMarkdownWithDiagrams (fun _ _ => Except.ok []) (fun _ => [])
      (("# Title\nplain text, no fences.").toList)
      = ("# Title\nplain text, no fences.").toList :=
  claim_c8 _ _ _ (by decide)

/-- Witness for C1 at a concrete document with one mermaid block. -/
theorem claim_c1_witness :
    ∃ conts : List Text,
      renderMarkdownWithDiagrams (fun _ _ => Except.ok (("<svg></svg>").toList))
          (fun _ => ("d0").toList) (("Intro\n```mermaid\ngraph TD\n```\nOutro").toList)
        = interleave
            (segsBetween (("Intro\n```mermaid\ngraph TD\n```\nOutro").toList) 0
              (getDiagramBlocks (("Intro\n```mermaid\ngraph TD\n```\nOutro").toList)))
            conts
      ∧ conts.length
          = (getDiagramBlocks (("Intro\n```mermaid\ngraph TD\n```\nOutro").toList)).length
      ∧ ∀ i, i < (getDiagramBlocks (("Intro\n```mermaid\ngraph TD\n```\nOutro").toList)).length →
          (∃ svg, conts.getD i [] = successContainer ((fun _ => ("d0").toList) i) svg)
          ∨ (∃ msg, conts.getD i []
              = errorContainer ((fun _ => ("d0").toList) i)
                  (((getDiagramBlocks
                      (("Intro\n```mermaid\ngraph TD\n```\nOutro").toList)).getD i default).language)
                  msg) :=
  claim_c1 _ _ _ (by unfold FreshIds; decide) (by unfold DollarFree; decide)

/-- Witness for C2 at a concrete document with one mermaid block whose
render fails. -/
theorem claim_c2_witness :
    renderMarkdownWithDiagrams (fun _ _ => Except.error (("boom").toList))
        (fun _ => ("d1").toList) (("A\n```mermaid\nX\n```\nB").toList)
      = interleave
          (segsBetween (("A\n```mermaid\nX\n```\nB").toList) 0
            (getDiagramBlocks (("A\n```mermaid\nX\n```\nB").toList)))
          (contsOf (fun _ _ => Except.error (("boom").toList)) (fun _ => ("d1").toList)
            (getDiagramBlocks (("A\n```mermaid\nX\n```\nB").toList))) :=
  claim_c2 _ _ _ (by unfold FreshIds; decide) (by unfold DollarFree; decide)

/-- C4: `withTimeout(task, durationMs, label)` returns the task's own
result or failure unchanged when the task settles before `durationMs`
elapses; if the deadline elapses first it rejects with a failure of kind
RenderTimeout carrying exactly the message
`"<label> timed out after <durationMs>ms"`, and this rejection occurs at
`fireAt >= durationMs` (the `setTimeout` guarantee), never before.  The
underlying task value is untouched by the race (abandonment, not
cancellation). -/
theorem claim_c4 {α : Type} (task : AsyncTask α) (timeoutMs : Nat) (operation : Text)
    (fireAt : Nat) (hfire : timeoutMs ≤ fireAt) :
    (∀ t out, task.result = some (t, out) → t < timeoutMs →
        withTimeout task timeoutMs operation fireAt = (t, out))
    ∧ ((task.result = none ∨ ∃ t out, task.result = some (t, out) ∧ fireAt < t) →
        withTimeout task timeoutMs operation fireAt
          = (fireAt, TaskOutcome.err (timeoutRejection operation timeoutMs))
        ∧ timeoutMs ≤ fireAt
        ∧ (timeoutRejection operation timeoutMs).dtype
            = some DiagramErrorType.render_timeout
        ∧ (timeoutRejection operation timeoutMs).message
            = operation ++ (" timed out after ").toList
                ++ (toString timeoutMs).toList ++ ("ms").toList) := by
  constructor
  · intro t out h hlt
    rw [withTimeout, h]
    exact if_pos (by omega)
  · intro h
    refine ⟨?_, hfire, rfl, rfl⟩
    rcases h with h | ⟨t, out, h, hgt⟩
    · rw [withTimeout, h]
    · rw [withTimeout, h]
      exact if_neg (by omega)

/-- Witness for C4: a task settling at time 5 beats a 10ms deadline and its
result is returned unchanged; a never-settling task is rejected at the
timer's fire time 1000 with the RenderTimeout failure. -/
theorem claim_c4_witness :
    withTimeout (AsyncTask.mk (some (5, TaskOutcome.ok (("v").toList)))) 10
        (("X").toList) 10
      = (5, TaskOutcome.ok (("v").toList))
    ∧ withTimeout (AsyncTask.mk (none : Option (Nat × TaskOutcome Text))) 1000
        (("X").toList) 1000
      = (1000, TaskOutcome.err (timeoutRejection (("X").toList) 1000)) := by
  constructor
  · exact (claim_c4 _ 10 _ 10 (by decide)).1 5 _ rfl (by decide)
  · exact ((claim_c4 _ 1000 _ 1000 (by decide)).2 (Or.inl rfl)).1

/-- C5 counterexample: a failure already tagged RenderTimeout whose message
matches the syntax keyword set is reclassified as SyntaxError by the catch
block (the syntax check runs first), so it does not pass through with its
kind preserved as the claim states. -/
theorem claim_c5_counterexample :
    (classifyError
        { message := ("syntax").toList, dtype := some DiagramErrorType.render_timeout }
        (("mermaid").toList)).dtype ≠ DiagramErrorType.render_timeout
    ∧ (classifyError
        { message := ("syntax").toList, dtype := some DiagramErrorType.render_timeout }
        (("mermaid").toList)).dtype = DiagramErrorType.syntax_error := by
  constructor
  · decide
  · decide

/-- C5 (amended): classification applies its rules in the code's order —
syntax keywords first, then load keywords, then the
already-tagged-RenderTimeout passthrough (kind and message preserved),
else UnknownError — and `classify(Error("Syntax error in line 5"),
"mermaid")` yields kind SyntaxError with a message mentioning line 5. -/
theorem claim_c5_amended :
    (∀ e lang, isSyntaxError e lang = true →
        (classifyError e lang).dtype = DiagramErrorType.syntax_error
        ∧ (classifyError e lang).message = extractSyntaxErrorMessage e lang)
    ∧ (∀ e lang, isSyntaxError e lang = false → isLibraryLoadError e = true →
        (classifyError e lang).dtype = DiagramErrorType.library_load_error)
    ∧ (∀ e lang, isSyntaxError e lang = false → isLibraryLoadError e = false →
        e.dtype = some DiagramErrorType.render_timeout →
        (classifyError e lang).dtype = DiagramErrorType.render_timeout
        ∧ (classifyError e lang).message = e.message)
    ∧ (∀ e lang, isSyntaxError e lang = false → isLibraryLoadError e = false →
        e.dtype ≠ some DiagramErrorType.render_timeout →
        (classifyError e lang).dtype = DiagramErrorType.unknown_error)
    ∧ ((classifyError { message := ("Syntax error in line 5").toList }
          (("mermaid").toList)).dtype = DiagramErrorType.syntax_error
        ∧ isSubstr (("line 5").toList)
            (classifyError { message := ("Syntax error in line 5").toList }
              (("mermaid").toList)).message = true) := by
  refine ⟨?_, ?_, ?_, ?_, by decide, by decide⟩
  · intro e lang h
    rw [classifyError, if_pos h]
    exact ⟨rfl, rfl⟩
  · intro e lang h1 h2
    rw [classifyError, if_neg (by simp [h1]), if_pos h2]
  · intro e lang h1 h2 h3
    rw [classifyError, if_neg (by simp [h1]), if_neg (by simp [h2]), if_pos h3]
    exact ⟨rfl, rfl⟩
  · intro e lang h1 h2 h3
    rw [classifyError, if_neg (by simp [h1]), if_neg (by simp [h2]), if_neg h3]

/-- Witness for C5 (amended): the timeout rejection produced by the guard
itself matches no syntax or load keyword and passes through with kind and
message preserved. -/
theorem claim_c5_amended_witness :
    (classifyError
        { message := ("mermaid diagram rendering timed out after 30000ms").toList,
          dtype := some DiagramErrorType.render_timeout }
        (("mermaid").toList)).dtype = DiagramErrorType.render_timeout := by
  exact (claim_c5_amended.2.2.1 _ _ (by decide) (by decide) rfl).1

/-- C6 counterexample: the error container produced by the string
document-processing path `renderMarkdownWithDiagrams` for a failing
mermaid block has the `diagram-container diagram-error` classes but no
`data-error-type` attribute, no `"<Language> Diagram Error"` title, and
none of the four fixed user messages — refuting the claim that every
error container of document processing carries them. -/
theorem claim_c6_counterexample :
    isSubstr (("diagram-container diagram-error").toList)
        (renderMarkdownWithDiagrams (fun _ _ => Except.error (("boom").toList))
          (fun _ => ("d2").toList) (("```mermaid\nX\n```").toList)) = true
    ∧ isSubstr (("data-error-type").toList)
        (renderMarkdownWithDiagrams (fun _ _ => Except.error (("boom").toList))
          (fun _ => ("d2").toList) (("```mermaid\nX\n```").toList)) = false
    ∧ isSubstr ((" Diagram Error").toList)
        (renderMarkdownWithDiagrams (fun _ _ => Except.error (("boom").toList))
          (fun _ => ("d2").toList) (("```mermaid\nX\n```").toList)) = false
    ∧ isSubstr (getUserMessage DiagramErrorType.syntax_error)
        (renderMarkdownWithDiagrams (fun _ _ => Except.error (("boom").toList))
          (fun _ => ("d2").toList) (("```mermaid\nX\n```").toList)) = false
    ∧ isSubstr (getUserMessage DiagramErrorType.library_load_error)
        (renderMarkdownWithDiagrams (fun _ _ => Except.error (("boom").toList))
          (fun _ => ("d2").toList) (("```mermaid\nX\n```").toList)) = false
    ∧ isSubstr (getUserMessage DiagramErrorType.render_timeout)
        (renderMarkdownWithDiagrams (fun _ _ => Except.error (("boom").toList))
          (fun _ => ("d2").toList) (("```mermaid\nX\n```").toList)) = false
    ∧ isSubstr (getUserMessage DiagramErrorType.unknown_error)
        (renderMarkdownWithDiagrams (fun _ _ => Except.error (("boom").toList))
          (fun _ => ("d2").toList) (("```mermaid\nX\n```").toList)) = false := by
  refine ⟨?_, ?_, ?_, ?_, ?_, ?_, ?_⟩ <;> decide

/-- C6 (amended): error containers built by `createErrorElement` (the DOM
document-processing path) are wrappers with classes
`diagram-container diagram-error`, a `data-error-type` attribute equal to
the lowercased snake ErrorKind tag, a `"<Language> Diagram Error"` title,
exactly one of the four fixed literal user messages, and a collapsible
technical-details section — present when an original error or a non-empty
diagram source is supplied — containing the debug message when an original
error is present and the diagram source verbatim when supplied.  (The
string path `renderMarkdownWithDiagrams` instead emits only the classes,
an `"Error rendering <language> diagram:"` title and the escaped raw
message.) -/
theorem claim_c6_amended (e : DiagramRenderError) (language : Text) (code : Option Text) :
    htmlClass (createErrorElement e language code)
      = ("diagram-container diagram-error").toList
    ∧ htmlAttrs (createErrorElement e language code)
      = [((("data-error-type").toList), typeTag e.dtype)]
    ∧ typeTag e.dtype ∈ [("syntax_error").toList, ("library_load_error").toList,
        ("render_timeout").toList, ("unknown_error").toList]
    ∧ (htmlChildren (createErrorElement e language code)).take 2
      = [Html.el (("p").toList) (("diagram-error-title").toList) []
          [Html.txt (capFirst language ++ (" Diagram Error").toList)],
         Html.el (("p").toList) (("diagram-error-message").toList) []
          [Html.txt (getUserMessage e.dtype)]]
    ∧ getUserMessage e.dtype ∈
        [getUserMessage DiagramErrorType.syntax_error,
         getUserMessage DiagramErrorType.library_load_error,
         getUserMessage DiagramErrorType.render_timeout,
         getUserMessage DiagramErrorType.unknown_error]
    ∧ (e.original.isSome = false → truthyText code = false →
        (htmlChildren (createErrorElement e language code)).length = 2)
    ∧ (e.original.isSome = true ∨ truthyText code = true →
        ∃ rest,
          htmlChildren (createErrorElement e language code)
            = (htmlChildren (createErrorElement e language code)).take 2
              ++ [Html.el (("details").toList) (("diagram-error-details").toList) []
                   (Html.el (("summary").toList) [] [] [Html.txt (("Technical details").toList)]
                     :: rest)]
          ∧ (e.original.isSome = true →
              Html.el (("pre").toList) (("diagram-error-debug").toList) []
                [Html.txt (getDebugMessage e)] ∈ rest)
          ∧ (truthyText code = true →
              Html.el (("div").toList) (("diagram-error-code").toList) []
                [Html.el (("p").toList) (("diagram-error-code-label").toList) []
                   [Html.txt (("Diagram code:").toList)],
                 Html.el (("pre").toList) (("diagram-error-code-content").toList) []
                   [Html.txt (code.getD [])]] ∈ rest)) := by
  refine ⟨?_, ?_, ?_, ?_, ?_, ?_, ?_⟩
  · cases ho : e.original <;> cases hc : truthyText code <;>
      simp [createErrorElement, htmlClass, ho, hc]
  · cases ho : e.original <;> cases hc : truthyText code <;>
      simp [createErrorElement, htmlAttrs, ho, hc]
  · cases e.dtype <;> simp [typeTag]
  · cases ho : e.original <;> cases hc : truthyText code <;>
      simp [createErrorElement, htmlChildren, ho, hc]
  · cases e.dtype <;> simp
  · intro ho hc
    cases hoo : e.original with
    | some om => rw [hoo] at ho; simp at ho
    | none => simp [createErrorElement, htmlChildren, hoo, hc]
  · intro h
    cases ho : e.original with
    | some om =>
      by_cases hc : truthyText code = true
      · refine ⟨[Html.el (("pre").toList) (("diagram-error-debug").toList) []
            [Html.txt (getDebugMessage e)],
          Html.el (("div").toList) (("diagram-error-code").toList) []
            [Html.el (("p").toList) (("diagram-error-code-label").toList) []
               [Html.txt (("Diagram code:").toList)],
             Html.el (("pre").toList) (("diagram-error-code-content").toList) []
               [Html.txt (code.getD [])]]], ?_, ?_, ?_⟩
        · simp [createErrorElement, htmlChildren, ho, hc]
        · intro _; simp
        · intro _; simp
      · have hc' : truthyText code = false := by simpa using hc
        refine ⟨[Html.el (("pre").toList) (("diagram-error-debug").toList) []
            [Html.txt (getDebugMessage e)]], ?_, ?_, ?_⟩
        · simp [createErrorElement, htmlChildren, ho, hc']
        · intro _; simp
        · intro hcc; rw [hcc] at hc'; cases hc'
    | none =>
      have hcode : truthyText code = true := by
        rcases h with h | h
        · rw [ho] at h; simp at h
        · exact h
      refine ⟨[Html.el (("div").toList) (("diagram-error-code").toList) []
          [Html.el (("p").toList) (("diagram-error-code-label").toList) []
             [Html.txt (("Diagram code:").toList)],
           Html.el (("pre").toList) (("diagram-error-code-content").toList) []
             [Html.txt (code.getD [])]]], ?_, ?_, ?_⟩
      · simp [createErrorElement, htmlChildren, ho, hcode]
      · intro hco; simp at hco
      · intro _; simp

/-- Witness for C6 (amended) at a concrete syntax error with an original
error and diagram source supplied. -/
theorem claim_c6_amended_witness :
    htmlClass (createErrorElement
        { message := ("bad").toList, dtype := DiagramErrorType.syntax_error,
          original := some ((("oops").toList), none) }
        (("mermaid").toList) (some (("graph TD").toList)))
      = ("diagram-container diagram-error").toList
    ∧ (∃ rest,
        htmlChildren (createErrorElement
            { message := ("bad").toList, dtype := DiagramErrorType.syntax_error,
              original := some ((("oops").toList), none) }
            (("mermaid").toList) (some (("graph TD").toList)))
          = (htmlChildren (createErrorElement
              { message := ("bad").toList, dtype := DiagramErrorType.syntax_error,
                original := some ((("oops").toList), none) }
              (("mermaid").toList) (some (("graph TD").toList)))).take 2
            ++ [Html.el (("details").toList) (("diagram-error-details").toList) []
                 (Html.el (("summary").toList) [] [] [Html.txt (("Technical details").toList)]
                   :: rest)]
        ∧ (({ message := ("bad").toList, dtype := DiagramErrorType.syntax_error,
              original := some ((("oops").toList), none) } : DiagramRenderError).original.isSome
              = true →
            Html.el (("pre").toList) (("diagram-error-debug").toList) []
              [Html.txt (getDebugMessage
                { message := ("bad").toList, dtype := DiagramErrorType.syntax_error,
                  original := some ((("oops").toList), none) })] ∈ rest)
        ∧ (truthyText (some (("graph TD").toList)) = true →
            Html.el (("div").toList) (("diagram-error-code").toList) []
              [Html.el (("p").toList) (("diagram-error-code-label").toList) []
                 [Html.txt (("Diagram code:").toList)],
               Html.el (("pre").toList) (("diagram-error-code-content").toList) []
                 [Html.txt ((some (("graph TD").toList)).getD [])]] ∈ rest)) := by
  constructor
  · exact (claim_c6_amended _ _ _).1
  · exact (claim_c6_amended _ _ _).2.2.2.2.2.2 (Or.inl rfl)

/-! ### Registry lemmas -/

theorem toNat_ofNat_valid (n : Nat) (h : n.isValidChar) : (Char.ofNat n).toNat = n := by
  rw [Char.ofNat, dif_pos h]
  simp [Char.ofNatAux, Char.toNat, UInt32.ofNat', UInt32.toNat, BitVec.toNat_ofNatLt]

theorem toLower_idem (c : Char) : c.toLower.toLower = c.toLower := by
  unfold Char.toLower
  dsimp only
  by_cases h : c.toNat ≥ 65 ∧ c.toNat ≤ 90
  · rw [if_pos h]
    have h97 : (Char.ofNat (Char.toNat c + 32)).toNat = Char.toNat c + 32 :=
      toNat_ofNat_valid _ (Or.inl (by omega))
    rw [if_neg]
    rw [h97]
    omega
  · rw [if_neg h, if_neg h]

theorem toLowerT_idem (t : Text) : toLowerT (toLowerT t) = toLowerT t := by
  rw [toLowerT, toLowerT, List.map_map]
  exact List.map_congr_left (fun c _ => toLower_idem c)

theorem alookup_aset_self [DecidableEq κ] (k : κ) (v : α) :
    ∀ m : List (κ × α), alookup k (aset k v m) = some v := by
  intro m
  induction m with
  | nil => simp [aset, alookup]
  | cons kv r ih =>
    by_cases h : k = kv.1
    · simp [aset, alookup, h]
    · simp [aset, alookup, h, ih]

theorem aerase_aset_of_none [DecidableEq κ] (k : κ) (v : α) :
    ∀ m : List (κ × α), alookup k m = none → aerase k (aset k v m) = m := by
  intro m
  induction m with
  | nil => intro _; simp [aset, aerase]
  | cons kv r ih =>
    intro h
    rw [alookup] at h
    by_cases hk : k = kv.1
    · rw [if_pos hk] at h; cases h
    · rw [if_neg hk] at h
      rw [aset, if_neg hk, aerase, if_neg hk, ih h]

theorem supports_contains (language : Text) (h : supportsLanguage language = true) :
    supportedLanguages.contains (toLowerT language) = true := by
  rw [supportsLanguage] at h
  by_cases he : language.isEmpty
  · rw [if_pos he] at h; cases h
  · rwa [if_neg he] at h

theorem not_supports_contains (language : Text) (h : supportsLanguage language = false) :
    supportedLanguages.contains (toLowerT language) = false := by
  rw [supportsLanguage] at h
  by_cases he : language.isEmpty = true
  · have : language = [] := by simpa using he
    subst this
    decide
  · rw [if_neg he] at h
    exact h

theorem getRendererLoader_lower (language : Text) :
    getRendererLoader (toLowerT language)
      = if supportedLanguages.contains (toLowerT language) then some () else none := by
  rw [getRendererLoader, toLowerT_idem]

theorem loadRendererSync_started (st : ManagerState) (language : Text)
    (h1 : alookup (toLowerT language) st.renderers = none)
    (h2 : alookup (toLowerT language) st.rendererLoaders = none)
    (h3 : supportedLanguages.contains (toLowerT language) = true) :
    loadRendererSync st language =
      (LoadStart.started st.nextPromiseId,
       { st with rendererLoaders := aset (toLowerT language) st.nextPromiseId st.rendererLoaders,
                 nextPromiseId := st.nextPromiseId + 1 }) := by
  rw [loadRendererSync]
  dsimp only
  rw [h1, h2, getRendererLoader_lower, if_pos h3]

theorem loadRendererSync_inflight (st : ManagerState) (language : Text) (pid : Nat)
    (h1 : alookup (toLowerT language) st.renderers = none)
    (h2 : alookup (toLowerT language) st.rendererLoaders = some pid) :
    loadRendererSync st language = (LoadStart.inFlight pid, st) := by
  rw [loadRendererSync]
  dsimp only
  rw [h1, h2]

theorem loadCalls_inflight (language : Text) (pid : Nat) :
    ∀ (n : Nat) (st : ManagerState),
      alookup (toLowerT language) st.renderers = none →
      alookup (toLowerT language) st.rendererLoaders = some pid →
      loadCalls st language n = (List.replicate n (LoadStart.inFlight pid), st) := by
  intro n
  induction n with
  | zero => intro st _ _; rfl
  | succ n ih =>
    intro st h1 h2
    rw [loadCalls]
    rw [loadRendererSync_inflight st language pid h1 h2]
    rw [ih st h1 h2]
    simp [List.replicate_succ]

theorem countP_replicate (p : α → Bool) (a : α) :
    ∀ n : Nat, (List.replicate n a).countP p = if p a then n else 0 := by
  intro n
  induction n with
  | zero => simp
  | succ n ih =>
    rw [List.replicate_succ, List.countP_cons, ih]
    by_cases h : p a <;> simp [h]

theorem loadCalls_spec (st : ManagerState) (language : Text) (n : Nat)
    (hsup : supportsLanguage language = true)
    (hc : alookup (toLowerT language) st.renderers = none)
    (hf : alookup (toLowerT language) st.rendererLoaders = none) :
    loadCalls st language (n + 1)
      = (LoadStart.started st.nextPromiseId
           :: List.replicate n (LoadStart.inFlight st.nextPromiseId),
         { st with rendererLoaders := aset (toLowerT language) st.nextPromiseId st.rendererLoaders,
                   nextPromiseId := st.nextPromiseId + 1 }) := by
  rw [loadCalls]
  rw [loadRendererSync_started st language hc hf (supports_contains language hsup)]
  dsimp only
  rw [loadCalls_inflight language st.nextPromiseId n
    (ManagerState.mk st.renderers (aset (toLowerT language) st.nextPromiseId st.rendererLoaders)
      st.loadingCallbacks st.instMap (st.nextPromiseId + 1) st.nextInstId)
    hc (alookup_aset_self _ _ _)]

/-- C3: the registry keeps at most one in-flight load per language key: for
`n + 1` back-to-back `loadRenderer` calls on the same not-yet-loaded
supported language, exactly one underlying load is started and all other
callers receive the same shared promise; on success the result is cached
and the in-flight entry removed; on failure the in-flight entry is removed
so that a later call starts a fresh load. -/
theorem claim_c3 (st : ManagerState) (language : Text) (n : Nat)
    (hsup : supportsLanguage language = true)
    (hc : alookup (toLowerT language) st.renderers = none)
    (hf : alookup (toLowerT language) st.rendererLoaders = none) :
    (loadCalls st language (n + 1)).1
      = LoadStart.started st.nextPromiseId
          :: List.replicate n (LoadStart.inFlight st.nextPromiseId)
    ∧ ((loadCalls st language (n + 1)).1.countP
        (fun r => match r with | LoadStart.started _ => true | _ => false)) = 1
    ∧ alookup (toLowerT language)
        (loadSuccess (loadCalls st language (n + 1)).2 language).1.renderers
        = some (loadCalls st language (n + 1)).2.nextInstId
    ∧ alookup (toLowerT language)
        (loadSuccess (loadCalls st language (n + 1)).2 language).1.rendererLoaders = none
    ∧ alookup (toLowerT language)
        (loadFailure (loadCalls st language (n + 1)).2 language).rendererLoaders = none
    ∧ (loadRendererSync (loadFailure (loadCalls st language (n + 1)).2 language) language).1
        = LoadStart.started (loadCalls st language (n + 1)).2.nextPromiseId := by
  rw [loadCalls_spec st language n hsup hc hf]
  dsimp only
  refine ⟨rfl, ?_, ?_, ?_, ?_, ?_⟩
  · rw [List.countP_cons, countP_replicate]
    simp
  · rw [loadSuccess]
    dsimp only
    exact alookup_aset_self _ _ _
  · rw [loadSuccess]
    dsimp only
    rw [aerase_aset_of_none _ _ _ hf]
    exact hf
  · rw [loadFailure]
    dsimp only
    rw [aerase_aset_of_none _ _ _ hf]
    exact hf
  · rw [loadFailure]
    dsimp only
    rw [aerase_aset_of_none _ _ _ hf]
    have hstart := loadRendererSync_started
      (ManagerState.mk st.renderers st.rendererLoaders st.loadingCallbacks st.instMap
        (st.nextPromiseId + 1) st.nextInstId) language hc hf
      (supports_contains language hsup)
    rw [hstart]

/-- Witness for C3: three concurrent `loadRenderer("mermaid")` calls on a
fresh manager. -/
theorem claim_c3_witness :
    (loadCalls initState (("mermaid").toList) 3).1
      = LoadStart.started initState.nextPromiseId
          :: List.replicate 2 (LoadStart.inFlight initState.nextPromiseId)
    ∧ ((loadCalls initState (("mermaid").toList) 3).1.countP
        (fun r => match r with | LoadStart.started _ => true | _ => false)) = 1
    ∧ alookup (toLowerT (("mermaid").toList))
        (loadSuccess (loadCalls initState (("mermaid").toList) 3).2
          (("mermaid").toList)).1.renderers
        = some (loadCalls initState (("mermaid").toList) 3).2.nextInstId
    ∧ alookup (toLowerT (("mermaid").toList))
        (loadSuccess (loadCalls initState (("mermaid").toList) 3).2
          (("mermaid").toList)).1.rendererLoaders = none
    ∧ alookup (toLowerT (("mermaid").toList))
        (loadFailure (loadCalls initState (("mermaid").toList) 3).2
          (("mermaid").toList)).rendererLoaders = none
    ∧ (loadRendererSync (loadFailure (loadCalls initState (("mermaid").toList) 3).2
          (("mermaid").toList)) (("mermaid").toList)).1
        = LoadStart.started (loadCalls initState (("mermaid").toList) 3).2.nextPromiseId :=
  claim_c3 initState (("mermaid").toList) 2 (by decide) (by decide) (by decide)

/-- C7: for every language string outside the supported set (and not
manually registered or already loading under that key), `loadRenderer` and
`renderDiagram` fail immediately with the not-found error
`"No loader found for language: <language>"`, the state is unchanged, and
no load promise is created or stored. -/
theorem claim_c7 (st : ManagerState) (language : Text)
    (hsup : supportsLanguage language = false)
    (hc : alookup (toLowerT language) st.renderers = none)
    (hf : alookup (toLowerT language) st.rendererLoaders = none) :
    loadRendererSync st language
      = (LoadStart.noLoader ((("No loader found for language: ").toList) ++ language), st)
    ∧ renderDiagramStart st language
      = (LoadStart.noLoader ((("No loader found for language: ").toList) ++ language), st)
    ∧ (loadRendererSync st language).2.rendererLoaders = st.rendererLoaders := by
  have hmain : loadRendererSync st language
      = (LoadStart.noLoader ((("No loader found for language: ").toList) ++ language), st) := by
    rw [loadRendererSync]
    dsimp only
    rw [hc, hf, getRendererLoader_lower, if_neg (by rw [not_supports_contains language hsup]; simp)]
  exact ⟨hmain, hmain, by rw [hmain]⟩

/-- Witness for C7: `renderDiagram("unknown-lang", code)` on a fresh
manager fails immediately with the not-found condition. -/
theorem claim_c7_witness :
    loadRendererSync initState (("unknown-lang").toList)
      = (LoadStart.noLoader ((("No loader found for language: ").toList)
          ++ ("unknown-lang").toList), initState)
    ∧ renderDiagramStart initState (("unknown-lang").toList)
      = (LoadStart.noLoader ((("No loader found for language: ").toList)
          ++ ("unknown-lang").toList), initState)
    ∧ (loadRendererSync initState (("unknown-lang").toList)).2.rendererLoaders
      = initState.rendererLoaders :=
  claim_c7 initState (("unknown-lang").toList) (by decide) (by decide) (by decide)

theorem renderSeq_inited (a b : Text) (iid : Nat) :
    ∀ (ws : List Text) (st : ManagerState),
      (∀ w ∈ ws, w = a ∨ w = b) →
      alookup (toLowerT a) st.renderers = some iid →
      alookup (toLowerT b) st.renderers = some iid →
      alookup iid st.instMap = some { inited := true } →
      renderSeq st ws = (st, 0) := by
  intro ws
  induction ws with
  | nil => intro st _ _ _ _; rfl
  | cons w ws ih =>
    intro st hw ha hb hi
    have hstep : renderDiagramStep st w = (st, 0) := by
      rcases hw w (by simp) with h | h
      · subst h
        rw [renderDiagramStep, ha]
        simp [hi]
      · subst h
        rw [renderDiagramStep, hb]
        simp [hi]
    rw [renderSeq, hstep]
    dsimp only
    rw [ih st (fun w hwm => hw w (by simp [hwm])) ha hb hi]
    rfl

/-- C9: when one renderer instance is registered under two language
aliases, rendering through both aliases (in any order, any number of
times, at least once) results in exactly one `initialize()` call in total:
`renderDiagram` calls `initialize` only when the shared instance's
initialized flag is not set, and `initialize` sets that flag. -/
theorem claim_c9 (st : ManagerState) (a b : Text) (iid : Nat) (ws : List Text)
    (ha : alookup (toLowerT a) st.renderers = some iid)
    (hb : alookup (toLowerT b) st.renderers = some iid)
    (hi : alookup iid st.instMap = some { inited := false })
    (hne : ws ≠ [])
    (hw : ∀ w ∈ ws, w = a ∨ w = b) :
    (renderSeq st ws).2 = 1 := by
  cases ws with
  | nil => exact absurd rfl hne
  | cons w ws =>
    have hstep : renderDiagramStep st w
        = ({ st with instMap := aset iid { inited := true } st.instMap }, 1) := by
      rcases hw w (by simp) with h | h
      · subst h
        rw [renderDiagramStep, ha]
        simp [hi]
      · subst h
        rw [renderDiagramStep, hb]
        simp [hi]
    rw [renderSeq, hstep]
    dsimp only
    rw [renderSeq_inited a b iid ws
      (ManagerState.mk st.renderers st.rendererLoaders st.loadingCallbacks
        (aset iid { inited := true } st.instMap) st.nextPromiseId st.nextInstId)
      (fun w hwm => hw w (by simp [hwm])) ha hb (alookup_aset_self _ _ _)]
    rfl

/-- Witness for C9: one instance registered under both "dot" and
"graphviz"; rendering dot, graphviz, dot in sequence performs exactly one
initialize call. -/
theorem claim_c9_witness :
    (renderSeq
      (register (register { initState with instMap := [(7, { inited := false })] }
        (("dot").toList) 7) (("graphviz").toList) 7)
      [("dot").toList, ("graphviz").toList, ("dot").toList]).2 = 1 :=
  claim_c9 _ (("dot").toList) (("graphviz").toList) 7 _ (by decide) (by decide) (by decide)
    (by decide) (by decide)

/-- C10: `unregister` and `clearRenderers` modify only the resolved-renderer
cache: the in-flight load map and the loading-callback map are unchanged,
an in-flight load entry survives both operations, and its completion
handler still installs the renderer into the cache afterwards. -/
theorem claim_c10 (st : ManagerState) (language lang2 : Text) (pid : Nat) :
    (unregister st language).1.rendererLoaders = st.rendererLoaders
    ∧ (unregister st language).1.loadingCallbacks = st.loadingCallbacks
    ∧ (unregister st language).1.instMap = st.instMap
    ∧ (clearRenderers st).rendererLoaders = st.rendererLoaders
    ∧ (clearRenderers st).loadingCallbacks = st.loadingCallbacks
    ∧ (clearRenderers st).instMap = st.instMap
    ∧ (alookup (toLowerT lang2) st.rendererLoaders = some pid →
        alookup (toLowerT lang2) (clearRenderers st).rendererLoaders = some pid
        ∧ alookup (toLowerT lang2) (unregister st language).1.rendererLoaders = some pid
        ∧ alookup (toLowerT lang2)
            (loadSuccess (clearRenderers st) lang2).1.renderers
            = some (clearRenderers st).nextInstId) := by
  refine ⟨rfl, rfl, rfl, rfl, rfl, rfl, ?_⟩
  intro h
  refine ⟨h, h, ?_⟩
  rw [loadSuccess]
  dsimp only
  exact alookup_aset_self _ _ _

/-- Witness for C10 on a state with an in-flight mermaid load. -/
theorem claim_c10_witness :
    (unregister { initState with rendererLoaders := [((("mermaid").toList), 5)] }
        (("mermaid").toList)).1.rendererLoaders
      = ({ initState with
            rendererLoaders := [((("mermaid").toList), 5)] } : ManagerState).rendererLoaders
    ∧ alookup (toLowerT (("mermaid").toList))
        (clearRenderers { initState with
          rendererLoaders := [((("mermaid").toList), 5)] }).rendererLoaders = some 5
    ∧ alookup (toLowerT (("mermaid").toList))
        (loadSuccess (clearRenderers { initState with
          rendererLoaders := [((("mermaid").toList), 5)] }) (("mermaid").toList)).1.renderers
      = some (clearRenderers { initState with
          rendererLoaders := [((("mermaid").toList), 5)] }).nextInstId := by
  refine ⟨(claim_c10 _ (("mermaid").toList) (("mermaid").toList) 5).1, ?_, ?_⟩
  · exact ((claim_c10 _ (("mermaid").toList) (("mermaid").toList) 5).2.2.2.2.2.2 (by decide)).1
  · exact ((claim_c10 _ (("mermaid").toList) (("mermaid").toList) 5).2.2.2.2.2.2 (by decide)).2.2
